import Mathlib

/-!
# Verification of the yearbook-audit engine (`backend/app/main.py`)

A shallow embedding, in Lean 4, of the table/figure extraction and
rule-evaluation core of the audited repository.  Strings are modelled as
`List Char`; Python floats are modelled as exact rationals (`ℚ`), which agrees
with the source for the decimal magnitudes the rules manipulate; Python
regular expressions are modelled by hand-written recognizers over character
lists, each faithful to the specific pattern it embeds on the character
repertoire the program handles (ASCII plus the Latin-1/general-punctuation
characters appearing in the source constants); BeautifulSoup documents are
modelled by a rose tree of element and text nodes.  Each definition carries
the name of the Python function it translates.
-/

/-- Strings of the Python program are lists of characters. -/
abbrev Str := List Char

/-- Whitespace in Python (`str.strip`, `\s` in `re` with `str` patterns):
ASCII whitespace and the Unicode space/separator characters relevant here. -/
def pyIsSpace (c : Char) : Bool :=
  c.toNat = 32 ∨ (9 ≤ c.toNat ∧ c.toNat ≤ 13) ∨ (28 ≤ c.toNat ∧ c.toNat ≤ 31) ∨
  c.toNat = 0x85 ∨ c.toNat = 0xa0 ∨ c.toNat = 0x1680 ∨
  (0x2000 ≤ c.toNat ∧ c.toNat ≤ 0x200a) ∨ c.toNat = 0x2028 ∨ c.toNat = 0x2029 ∨
  c.toNat = 0x202f ∨ c.toNat = 0x205f ∨ c.toNat = 0x3000

/-- ASCII decimal digit (`\d` for the numeric patterns of the program,
which only ever face ASCII digits). -/
def isDig (c : Char) : Bool := '0' ≤ c ∧ c ≤ '9'

/-- Accent stripping (`strip_accents`, NFKD + drop combining marks) for the
Latin-1 letters that occur in the program's constants and inputs. -/
def stripAccentChar (c : Char) : Char :=
  if c ∈ ['á', 'à', 'â', 'ã', 'ä'] then 'a'
  else if c ∈ ['é', 'è', 'ê', 'ë'] then 'e'
  else if c ∈ ['í', 'ì', 'î', 'ï'] then 'i'
  else if c ∈ ['ó', 'ò', 'ô', 'õ', 'ö'] then 'o'
  else if c ∈ ['ú', 'ù', 'û', 'ü'] then 'u'
  else if c = 'ç' then 'c'
  else if c ∈ ['Á', 'À', 'Â', 'Ã', 'Ä'] then 'A'
  else if c ∈ ['É', 'È', 'Ê', 'Ë'] then 'E'
  else if c ∈ ['Í', 'Ì', 'Î', 'Ï'] then 'I'
  else if c ∈ ['Ó', 'Ò', 'Ô', 'Õ', 'Ö'] then 'O'
  else if c ∈ ['Ú', 'Ù', 'Û', 'Ü'] then 'U'
  else if c = 'Ç' then 'C'
  else c

/-- `strip_accents` of the source, on whole strings. -/
def strip_accents (s : Str) : Str := s.map stripAccentChar

/-- Python `str.lower` for ASCII letters and the accented letters above. -/
def pyToLower (c : Char) : Char :=
  if 'A' ≤ c ∧ c ≤ 'Z' then Char.ofNat (c.toNat + 32)
  else if 0xC0 ≤ c.toNat ∧ c.toNat ≤ 0xDE ∧ c.toNat ≠ 0xD7 then Char.ofNat (c.toNat + 32)
  else c

/-- Word character for `\w` / `\b` (ASCII alphanumerics, underscore, and the
accented Latin-1 letters the program's text contains). -/
def pyIsWord (c : Char) : Bool :=
  ('a' ≤ c ∧ c ≤ 'z') ∨ ('A' ≤ c ∧ c ≤ 'Z') ∨ isDig c ∨ c = '_' ∨
  (0xC0 ≤ c.toNat ∧ c.toNat ≤ 0xFF ∧ c.toNat ≠ 0xD7 ∧ c.toNat ≠ 0xF7)

/-- Splits a string into its maximal whitespace-free words. -/
def wordsAux (cur : Str) : Str → List Str
  | [] => if cur = [] then [] else [cur.reverse]
  | c :: cs =>
    if pyIsSpace c then
      if cur = [] then wordsAux [] cs else cur.reverse :: wordsAux [] cs
    else wordsAux (c :: cur) cs

def pyWords (s : Str) : List Str := wordsAux [] s

/-- Joins words with single spaces. -/
def joinWords : List Str → Str
  | [] => []
  | [w] => w
  | w :: ws => w ++ ' ' :: joinWords ws

/-- Python `" ".join(parts)`: a space between every two parts, empties kept. -/
def joinAll : List Str → Str
  | [] => []
  | [w] => w
  | w :: ws => w ++ ' ' :: joinAll ws

/-- Python `str.strip()` (both ends, whitespace). -/
def pyStrip (s : Str) : Str :=
  ((s.dropWhile pyIsSpace).reverse.dropWhile pyIsSpace).reverse

/-- `normalize_text`: replace non-breaking spaces by spaces, strip the ends,
collapse whitespace runs to one space.  Strip-then-collapse equals joining
the whitespace-separated words with single spaces. -/
def normalize_text (s : Str) : Str :=
  joinWords (pyWords (s.map fun c => if c.toNat = 0xa0 then ' ' else c))

/-- `normalize_key`: normalize, lowercase, strip accents, drop every
character that is not a word character, whitespace, `/` or `-`, collapse. -/
def normalize_key (s : Str) : Str :=
  let t := strip_accents ((normalize_text s).map pyToLower)
  let t := t.filter fun c => pyIsWord c ∨ pyIsSpace c ∨ c = '/' ∨ c = '-'
  joinWords (pyWords t)

/-- `EMPTY_MARKERS` of the source: the empty string, em dash, en dash,
hyphen-minus and horizontal bar. -/
def EMPTY_MARKERS : List Str := [[], ['—'], ['–'], ['-'], ['―']]

/-- `TOTAL_WORDS` of the source. -/
def TOTAL_WORDS : List Str :=
  ["total".data, "subtotal".data, "totais".data, "geral".data, "total geral".data]

/-- `ND_WORDS` of the source. -/
def ND_WORDS : List Str :=
  ["nd".data, "n.d.".data, "não disponível".data, "nao disponivel".data,
   "n/a".data, "na".data, "não informado".data, "nao informado".data]

/-- `BROKEN_CHARS` of the source.  In the source file both entries are the
plain ASCII space character (the original mis-encoded characters were
themselves mangled into spaces). -/
def BROKEN_CHARS : List Char := [' ', ' ']

/-- `SUSPECT_WORDS` of the source. -/
def SUSPECT_WORDS : List Str :=
  ["estut".data, "administ".data, "gover".data, "regulamente".data,
   "instituído".data, "instituido".data, "administrist".data, "estud".data,
   "admnis".data, "regulament".data]

/-- `is_empty_cell`. -/
def is_empty_cell (s : Str) : Bool := EMPTY_MARKERS.contains (normalize_text s)

/-- `is_nd_cell`. -/
def is_nd_cell (s : Str) : Bool :=
  (ND_WORDS.map normalize_key).contains (normalize_key s)

/-!
## Numeric patterns (`re` patterns of the source, as recognizers)
-/

/-- `(\.\d{3})+` : one or more groups of a dot followed by three digits. -/
def dotGroups : Str → Bool
  | d :: a :: b :: c :: rest =>
    d = '.' ∧ isDig a ∧ isDig b ∧ isDig c ∧ (rest = [] ∨ dotGroups rest)
  | _ => false

/-- `THOUSAND_DOT_RE`, `^\d{1,3}(\.\d{3})+$`: split at the dots, the head part
has one to three digits and every further part exactly three. -/
def thousandDotMatch (s : Str) : Bool :=
  match s with
  | a :: rest =>
    if isDig a then
      match rest with
      | b :: rest2 =>
        if isDig b then
          match rest2 with
          | c :: rest3 => if isDig c then dotGroups rest3 else dotGroups rest2
          | [] => false
        else dotGroups rest
      | [] => false
    else false
  | [] => false

/-- `(\.\d{3})*` : zero or more dot-plus-three-digit groups. -/
def dotGroupsOpt (s : Str) : Bool := s = [] ∨ dotGroups s

/-- The integral part `\d{1,3}(\.\d{3})*` of `PTBR_DECIMAL_RE`. -/
def ptbrIntPart (s : Str) : Bool :=
  match s with
  | a :: rest =>
    if isDig a then
      match rest with
      | b :: rest2 =>
        if isDig b then
          match rest2 with
          | c :: rest3 => if isDig c then dotGroupsOpt rest3 else dotGroupsOpt rest2
          | [] => true
        else dotGroupsOpt rest
      | [] => true
    else false
  | [] => false

/-- Splits at the first comma, if any. -/
def splitComma : Str → Option (Str × Str)
  | [] => none
  | ',' :: rest => some ([], rest)
  | c :: rest =>
    match splitComma rest with
    | some (l, r) => some (c :: l, r)
    | none => none

/-- `PTBR_DECIMAL_RE`, `^\d{1,3}(\.\d{3})*,\d+$`. -/
def ptbrDecimalMatch (s : Str) : Bool :=
  match splitComma s with
  | some (l, r) =>
    ptbrIntPart l ∧ r ≠ [] ∧ r.all isDig ∧ ¬ r.contains ','
  | none => false

/-- `^\d+$`. -/
def plainIntMatch (s : Str) : Bool := s ≠ [] ∧ s.all isDig

/-- Splits at the first dot, if any. -/
def splitDot : Str → Option (Str × Str)
  | [] => none
  | '.' :: rest => some ([], rest)
  | c :: rest =>
    match splitDot rest with
    | some (l, r) => some (c :: l, r)
    | none => none

/-- `^\d+\.\d+$`. -/
def decimalDotMatch (s : Str) : Bool :=
  match splitDot s with
  | some (l, r) => l ≠ [] ∧ l.all isDig ∧ r ≠ [] ∧ r.all isDig ∧ ¬ r.contains '.'
  | none => false

/-- Numeric value of a digit string. -/
def digitsToNat (l : Str) : Nat :=
  l.foldl (fun acc c => 10 * acc + (c.toNat - 48)) 0

/-- The rational `(-1)^neg * mant / 10 ^ exp`: the exact value of every
number the Python parser produces (`float` of a decimal literal). -/
def ratVal (mant : Nat) (exp : Nat) (neg : Bool) : ℚ :=
  (if neg then -1 else 1) * (mant : ℚ) / (10 : ℚ) ^ exp

/-- The sign-and-patterns stage of `parse_number_ptbr`: take a
parenthesized or leading-minus sign, then try, in this order, the
thousand-dot integer pattern, the PT-BR decimal pattern, the plain integer
pattern and the loose decimal-dot pattern. -/
def parseSigned (t0 : Str) : Option ℚ :=
  let p : Bool × Str :=
    if t0.head? = some '(' ∧ t0.getLast? = some ')' then
      (true, pyStrip (t0.drop 1).dropLast)
    else (false, t0)
  let q : Bool × Str :=
    if p.2.head? = some '-' then (true, pyStrip (p.2.drop 1)) else p
  let neg := q.1
  let t := q.2
  if thousandDotMatch t then
    some (ratVal (digitsToNat (t.filter (· ≠ '.'))) 0 neg)
  else if ptbrDecimalMatch t then
    match splitComma t with
    | some (l, r) =>
      some (ratVal (digitsToNat (l.filter (· ≠ '.') ++ r)) r.length neg)
    | none => none
  else if plainIntMatch t then
    some (ratVal (digitsToNat t) 0 neg)
  else if decimalDotMatch t then
    match splitDot t with
    | some (l, r) => some (ratVal (digitsToNat (l ++ r)) r.length neg)
    | none => none
  else none

/-- `parse_number_ptbr` (string case).  The stages mirror the source:
normalize; reject empty and empty-marker strings; drop `%`; drop the
currency characters `R`, `$`, `€`, `£`; then `parseSigned`. -/
def parse_number_ptbr (s : Str) : Option ℚ :=
  let t := normalize_text s
  if t = [] then none
  else if EMPTY_MARKERS.contains t then none
  else
    let t := pyStrip (t.filter (· ≠ '%'))
    parseSigned (pyStrip (t.filter fun c => ¬ (c = 'R' ∨ c = '$' ∨ c = '€' ∨ c = '£')))

/-!
## Year and source-citation scanners (`YEAR_RE`, `YEAR_RANGE_RE`, `find_source_text`)
-/

/-- Is the head of the remainder a word character? (`\b` lookahead). -/
def wordHead : Str → Bool
  | [] => false
  | c :: _ => pyIsWord c

/-- Is the previous character (if any) a word character? (`\b` lookbehind). -/
def wordPrev : Option Char → Bool
  | none => false
  | some c => pyIsWord c

def skipWs (s : Str) : Str := s.dropWhile pyIsSpace

/-- Reads `20\d{2}` at the current position, returning the year and the rest. -/
def year4 : Str → Option (Nat × Str)
  | '2' :: '0' :: a :: b :: rest =>
    if isDig a ∧ isDig b then
      some (2000 + 10 * (a.toNat - 48) + (b.toNat - 48), rest)
    else none
  | _ => none

/-- `YEAR_RE.findall`: all word-bounded `20\d{2}` occurrences, left to right,
non-overlapping. -/
def findYearsAux : Option Char → Str → List Nat
  | prev, '2' :: '0' :: a :: b :: rest =>
    if ¬ wordPrev prev ∧ isDig a ∧ isDig b ∧ ¬ wordHead rest then
      (2000 + 10 * (a.toNat - 48) + (b.toNat - 48)) :: findYearsAux (some b) rest
    else findYearsAux (some '2') ('0' :: a :: b :: rest)
  | prev, c :: cs => findYearsAux (some c) cs
  | _, [] => []

/-- `detect_years_in_text`. -/
def detect_years_in_text (text : Str) : List Nat :=
  findYearsAux none (normalize_text text)

/-- After the first year of a range: `\s*(?:a|até|–|-)\s*(20\d{2})\b`
(case-insensitive), with the regex's backtracking over `a` versus `até`. -/
def rangeTail (rest : Str) : Option Nat :=
  let cont : Str → Option Nat := fun r =>
    match year4 (skipWs r) with
    | some (y2, rest2) => if wordHead rest2 then none else some y2
    | none => none
  match skipWs rest with
  | c :: r =>
    if pyToLower c = 'a' then
      match cont r with
      | some y2 => some y2
      | none =>
        match r with
        | t :: e :: r2 =>
          if pyToLower t = 't' ∧ (e = 'é' ∨ e = 'É') then cont r2 else none
        | _ => none
    else if c = '–' ∨ c = '-' then cont r
    else none
  | [] => none

/-- `YEAR_RANGE_RE.search`: leftmost word-bounded `20\d{2}` followed by a
range separator and a second word-bounded year. -/
def findRangeAux : Option Char → Str → Option (Nat × Nat)
  | prev, c :: cs =>
    (if ¬ wordPrev prev then
      match year4 (c :: cs) with
      | some (y1, rest) =>
        match rangeTail rest with
        | some y2 => some (y1, y2)
        | none => findRangeAux (some c) cs
      | none => findRangeAux (some c) cs
    else findRangeAux (some c) cs)
  | _, [] => none

/-- `detect_year_range`. -/
def detect_year_range (text : Str) : Option (Nat × Nat) :=
  findRangeAux none (normalize_text text)

/-- The separator class `[:\-–—]` of `find_source_text`. -/
def sourceSeps : List Char := [':', '-', '–', '—']

/-- Case-insensitive character comparison against a lowercase letter. -/
def ciIs (c : Char) (l : Char) : Bool := pyToLower c = l

/-- Does `\bFonte\b\s*[:\-–—]\s*.+` (case-insensitive) match at this
position?  (`.+` needs at least one character; the contexts searched are
normalized single-line strings, so `.` excludes nothing here.) -/
def fonteAt (prev : Option Char) : Str → Bool
  | f :: o :: n :: t :: e :: rest =>
    ! wordPrev prev && ciIs f 'f' && ciIs o 'o' && ciIs n 'n' && ciIs t 't' &&
    ciIs e 'e' && ! wordHead rest &&
    (match skipWs rest with
     | c :: r2 => sourceSeps.contains c && ! r2.isEmpty
     | [] => false)
  | _ => false

/-- `find_source_text` modelled as presence of a match: the rules only ever
test the result for truthiness, and a match is never the empty string. -/
def findSourceAux : Option Char → Str → Bool
  | prev, c :: cs => fonteAt prev (c :: cs) ∨ findSourceAux (some c) cs
  | _, [] => false

def find_source_text (context : Str) : Bool :=
  findSourceAux none context

/-- `\bFONTES\b` (case-sensitive) at this position. -/
def fontesUpperAt (prev : Option Char) : Str → Bool
  | 'F' :: 'O' :: 'N' :: 'T' :: 'E' :: 'S' :: rest =>
    ¬ wordPrev prev ∧ ¬ wordHead rest
  | _ => false

/-- `\bFonte\s{2,}:` (case-sensitive) at this position. -/
def fonteWideAt (prev : Option Char) : Str → Bool
  | 'F' :: 'o' :: 'n' :: 't' :: 'e' :: rest =>
    ! wordPrev prev && decide (2 ≤ (rest.takeWhile pyIsSpace).length) &&
    (match skipWs rest with
     | ':' :: _ => true
     | _ => false)
  | _ => false

/-- `re.search(r"\bFONTES\b|\bFonte\s{2,}:", ctx)` as presence. -/
def fontesStyleAux : Option Char → Str → Bool
  | prev, c :: cs =>
    fontesUpperAt prev (c :: cs) ∨ fonteWideAt prev (c :: cs) ∨
    fontesStyleAux (some c) cs
  | _, [] => false

def fontesStyleFound (ctx : Str) : Bool := fontesStyleAux none ctx

/-- `\bND\b\s*[:\-–—]\s*(dado|dados).*` (case-insensitive) at this position. -/
def ndNoteAt (prev : Option Char) : Str → Bool
  | n :: d :: rest =>
    ! wordPrev prev && ciIs n 'n' && ciIs d 'd' && ! wordHead rest &&
    (match skipWs rest with
     | c :: r2 =>
       sourceSeps.contains c &&
       (match skipWs r2 with
        | a :: b :: c2 :: d2 :: _ =>
          ciIs a 'd' && ciIs b 'a' && ciIs c2 'd' && ciIs d2 'o'
        | _ => false)
     | [] => false)
  | _ => false

def ndNoteAux : Option Char → Str → Bool
  | prev, c :: cs => ndNoteAt prev (c :: cs) ∨ ndNoteAux (some c) cs
  | _, [] => false

def ndNoteFound (ctx : Str) : Bool := ndNoteAux none ctx

/-!
## Records and findings
-/

/-- The dictionary `extract_tables_from_html` builds per table.  The source
also stores the raw markup string and its MD5 under `html` and `hash`;
`htmlNorm` (the whitespace-normalized serialized markup) stands for both,
since the hash is used only as an equality key. -/
structure TableRec where
  numero : Nat
  nome : Str
  headers : List Str
  rows_raw : List (List Str)
  htmlNorm : Str
  context_before : Str
  context_after : Str
  context_all : Str
deriving DecidableEq, Repr

/-- The dictionary `extract_figures_from_html` builds per figure. -/
structure FigureRec where
  numero : Nat
  nome : Str
  caption : Str
  alt : Str
  context_before : Str
  context_after : Str
  context_all : Str
  htmlNorm : Str
deriving DecidableEq, Repr

inductive Severity where
  | PASS | WARN | FAIL
deriving DecidableEq, Repr

inductive Kind where
  | Tabela | Figura | Documento
deriving DecidableEq, Repr

/-- A finding (`make_issue`).  `issue`, `detail` and `recommendation` are
human-readable prose in the source; `data` carries the numeric values that
prose interpolates (in order of appearance), which is what the claims are
about. -/
structure Finding where
  severity : Severity
  kind : Kind
  table : Str
  rule : String
  data : List ℚ
deriving DecidableEq, Repr

def make_issue (severity : Severity) (kind : Kind) (ident : Str)
    (rule : String) (data : List ℚ) : Finding :=
  ⟨severity, kind, ident, rule, data⟩

/-!
## Table classification and rule helpers
-/

/-- `re.match(r"^20\d{2}$", s)`. -/
def yearExact (s : Str) : Bool :=
  match s with
  | ['2', '0', a, b] => isDig a ∧ isDig b
  | _ => false

/-- `detect_thousand_inconsistency`. -/
def detect_thousand_inconsistency (values : List Str) : Bool :=
  let saw_plain_4plus := values.any fun v =>
    let t := normalize_text v
    4 ≤ t.length ∧ t.all isDig
  let saw_thousand_dot := values.any fun v => thousandDotMatch (normalize_text v)
  saw_plain_4plus ∧ saw_thousand_dot

/-- `is_time_series_table`.  `int(0.6 * n)` agrees with `3 * n / 5` on
machine floats for every list length arising here. -/
def is_time_series_table (table : TableRec) : Bool × String :=
  let year_cols := (List.range table.headers.length).filter fun i =>
    match table.headers.get? i with
    | some h => yearExact (normalize_text h)
    | none => false
  if 2 ≤ year_cols.length then (true, "year_columns")
  else
    match detect_year_range table.nome with
    | some _ => (true, "range_in_title")
    | none =>
      match detect_year_range table.context_all with
      | some _ => (true, "range_in_title")
      | none =>
        let first_col := table.rows_raw.filterMap fun r =>
          match r with
          | [] => none
          | c :: _ => if normalize_text c = [] then none else some (normalize_text c)
        let year_like := (first_col.filter yearExact).length
        if first_col ≠ [] ∧ max 2 (3 * first_col.length / 5) ≤ year_like ∧
            table.rows_raw ≠ [] then
          (true, "year_in_first_column")
        else (false, "")

/-!
## Table-level rules
-/

/-- Python `abs` on floats. -/
def pyAbs (q : ℚ) : ℚ := if q < 0 then -q else q

/-- `sorted(set(l))` for natural numbers: insertion sort then deduplicate. -/
def insSorted (x : Nat) : List Nat → List Nat
  | [] => [x]
  | y :: ys => if x ≤ y then x :: y :: ys else y :: insSorted x ys

def insSort : List Nat → List Nat
  | [] => []
  | x :: xs => insSorted x (insSort xs)

def uniqSorted : List Nat → List Nat
  | [] => []
  | [x] => [x]
  | x :: y :: r => if x = y then uniqSorted (y :: r) else x :: uniqSorted (y :: r)

def sortedSetNat (l : List Nat) : List Nat := uniqSorted (insSort l)

/-- First-match association lookup. -/
def assocFind {α β : Type} [DecidableEq α] (k : α) : List (α × β) → Option β
  | [] => none
  | (k2, v) :: rest => if k2 = k then some v else assocFind k rest

/-- `rule_table_empty`: no data rows, or every numeric value is zero
(`abs(n) < 1e-12`). -/
def rule_table_empty (table : TableRec) : Option Finding :=
  if table.rows_raw = [] then
    some (make_issue .FAIL .Tabela table.nome "table_empty" [])
  else
    let nums := table.rows_raw.flatten.filterMap parse_number_ptbr
    if nums ≠ [] ∧ nums.all (fun n => pyAbs n < 1 / 10 ^ 12) then
      some (make_issue .FAIL .Tabela table.nome "table_all_zero" [])
    else none

/-- `rule_table_without_data`. -/
def rule_table_without_data (table : TableRec) : Option Finding :=
  if table.rows_raw = [] then none
  else
    let has_numeric := table.rows_raw.any fun r =>
      r.any fun c => (parse_number_ptbr c).isSome
    if ¬ has_numeric then
      some (make_issue .FAIL .Tabela table.nome "table_without_data" [])
    else none

/-- `rule_blank_cells`: a WARN counting the blank cells, then a WARN/FAIL
counting the ND cells (severity depending on a nearby explanatory note). -/
def rule_blank_cells (table : TableRec) : List Finding :=
  if table.rows_raw = [] then []
  else
    let blanks := (table.rows_raw.flatten.filter is_empty_cell).length
    let nds := (table.rows_raw.flatten.filter fun c =>
      ¬ is_empty_cell c ∧ is_nd_cell c).length
    (if 0 < blanks then
      [make_issue .WARN .Tabela table.nome "blank_cells" [blanks]]
     else []) ++
    (if 0 < nds then
      let has_note := ndNoteFound table.context_all
      [make_issue (if has_note then .WARN else .FAIL) .Tabela table.nome
        "nd_cells" [nds]]
     else [])

/-- `rule_source_required`. -/
def rule_source_required (table : TableRec) : Option Finding :=
  if ¬ find_source_text table.context_all then
    some (make_issue .FAIL .Tabela table.nome "table_source_required" [])
  else none

/-- `rule_source_style_inconsistency`. -/
def rule_source_style_inconsistency (table : TableRec) : Option Finding :=
  if table.context_all = [] then none
  else if fontesStyleFound table.context_all then
    some (make_issue .WARN .Tabela table.nome "source_format_inconsistency" [])
  else none

/-- `\b\d+\.\d+\b` (`DECIMAL_DOT_RE`) at this position. -/
def decimalDotAt (prev : Option Char) (s : Str) : Bool :=
  ! wordPrev prev &&
  (let d1 := s.takeWhile isDig
   let r1 := s.dropWhile isDig
   ! d1.isEmpty &&
   (match r1 with
    | '.' :: r2 =>
      let d2 := r2.takeWhile isDig
      let r3 := r2.dropWhile isDig
      ! d2.isEmpty && ! wordHead r3
    | _ => false))

def decimalDotSearchAux : Option Char → Str → Bool
  | prev, c :: cs => decimalDotAt prev (c :: cs) ∨ decimalDotSearchAux (some c) cs
  | _, [] => false

def decimalDotFound (s : Str) : Bool := decimalDotSearchAux none s

/-- `rule_numeric_format_inconsistency`. -/
def rule_numeric_format_inconsistency (table : TableRec) : Option Finding :=
  if table.rows_raw = [] then none
  else
    let all_cells := table.rows_raw.flatten
    if detect_thousand_inconsistency all_cells then
      some (make_issue .WARN .Tabela table.nome
        "thousand_separator_inconsistency" [])
    else if all_cells.any (fun c => decimalDotFound (normalize_text c)) then
      let suspicious := all_cells.filter fun c =>
        decimalDotMatch (normalize_text c) ∧
        ¬ thousandDotMatch (normalize_text c)
      if suspicious ≠ [] then
        some (make_issue .WARN .Tabela table.nome "decimal_dot" [])
      else none
    else none

/-- `_row_label`. -/
def row_label (row : List Str) : Str :=
  match row with
  | [] => []
  | c :: _ => normalize_text c

/-- The (normalized label, normalized remaining cells) signature of a row. -/
def rowSig (r : List Str) : Str × List Str :=
  (normalize_key (row_label r), r.tail.map normalize_text)

/-- The loop of `rule_duplicate_rows_strict`: `seen` maps the signature to
the 1-based index of its latest occurrence. -/
def dupRowsAux (nome : Str) :
    List (List Str) → Nat → List ((Str × List Str) × Nat) → Option Finding
  | [], _, _ => none
  | r :: rest, i, seen =>
    if r = [] then dupRowsAux nome rest (i + 1) seen
    else
      match assocFind (rowSig r) seen with
      | some j =>
        if (rowSig r).1 ≠ [] then
          some (make_issue .WARN .Tabela nome "duplicated_row" [j, i])
        else dupRowsAux nome rest (i + 1) ((rowSig r, i) :: seen)
      | none => dupRowsAux nome rest (i + 1) ((rowSig r, i) :: seen)

/-- `rule_duplicate_rows_strict`. -/
def rule_duplicate_rows_strict (table : TableRec) : Option Finding :=
  if table.rows_raw = [] ∨ table.rows_raw.length < 2 then none
  else dupRowsAux table.nome table.rows_raw 1 []

/-- `find_total_row_index`. -/
def find_total_row_index (rows : List (List Str)) : Option Nat :=
  (rows.enum.filterMap fun p =>
    match p.2 with
    | [] => none
    | c :: _ =>
      if TOTAL_WORDS.contains (normalize_key c) then some p.1 else none).head?

/-- `find_total_col_index`. -/
def find_total_col_index (headers : List Str) : Option Nat :=
  (headers.enum.filterMap fun p =>
    if TOTAL_WORDS.contains (normalize_key p.2) ∨
        " total".data.isSuffixOf (normalize_key p.2) then some p.1
    else none).head?

/-- The parseable values of column `c` (`col_numeric_ratio`'s numerator). -/
def col_numeric_vals (rows : List (List Str)) (c : Nat) : List ℚ :=
  rows.filterMap fun r => (r.get? c).bind parse_number_ptbr

/-- `col_numeric_ratio`. -/
def col_numeric_frac (rows : List (List Str)) (c : Nat) : ℚ :=
  let vals := col_numeric_vals rows c
  if vals = [] then 0 else (vals.length : ℚ) / (max 1 rows.length : ℚ)

/-- `rule_totals`: totals-row check per numeric column, then totals-column
check per row.  `data` records the computed sum and the reported total. -/
def rule_totals (table : TableRec) : List Finding :=
  let headers := table.headers
  let rows := table.rows_raw
  if headers = [] ∨ rows = [] then []
  else
    let total_row := find_total_row_index rows
    let total_col := find_total_col_index headers
    if total_row = none ∧ total_col = none then []
    else
      let numeric_cols := (List.range headers.length).filter fun i =>
        1 ≤ i ∧ 1 / 2 ≤ col_numeric_frac rows i
      let rowIssues : List Finding :=
        match total_row with
        | none => []
        | some tr =>
          numeric_cols.filterMap fun c =>
            if headers.length ≤ c then none
            else
              match (rows.get? tr).bind (fun r => (r.get? c).bind parse_number_ptbr) with
              | none => none
              | some reported =>
                let above := (rows.take tr).filterMap fun r =>
                  (r.get? c).bind parse_number_ptbr
                let calcSum : ℚ := above.foldl (· + ·) 0
                if 1 ≤ above.length ∧ 1 / 2 < pyAbs (calcSum - reported) then
                  some (make_issue .FAIL .Tabela table.nome "total_row_mismatch"
                    [calcSum, reported])
                else none
      let colIssues : List Finding :=
        match total_col with
        | none => []
        | some tc =>
          rows.enum.filterMap fun p =>
            match p.2 with
            | [] => none
            | c0 :: _ =>
              if total_row = some p.1 then none
              else if TOTAL_WORDS.contains (normalize_key c0) then none
              else
                match ((c0 :: p.2.tail).get? tc).bind parse_number_ptbr with
                | none => none
                | some reported =>
                  let vals := (numeric_cols.filter (· ≠ tc)).filterMap fun c =>
                    (p.2.get? c).bind parse_number_ptbr
                  let calcSum : ℚ := vals.foldl (· + ·) 0
                  if 2 ≤ vals.length ∧ 1 / 2 < pyAbs (calcSum - reported) then
                    some (make_issue .FAIL .Tabela table.nome "total_col_mismatch"
                      [calcSum, reported])
                  else none
      rowIssues ++ colIssues

/-- `rule_year_base_mentions`. -/
def rule_year_base_mentions (table : TableRec) (base_year : Nat) : List Finding :=
  let name := table.nome
  let ctx := table.context_all
  let is_ts := (is_time_series_table table).1
  let years := detect_years_in_text (name ++ ' ' :: ctx)
  if years = [] then []
  else
    let rng := match detect_year_range name with
      | some p => some p
      | none => detect_year_range ctx
    if rng.isSome ∧ is_ts then
      match rng with
      | some (a, b) =>
        if ¬ (min a b ≤ base_year ∧ base_year ≤ max a b) then
          [make_issue .FAIL .Tabela name "year_range_mismatch" [a, b, base_year]]
        else []
      | none => []
    else if ¬ is_ts then
      let other_years := sortedSetNat (years.filter (· ≠ base_year))
      if other_years ≠ [] then
        [make_issue .WARN .Tabela name "year_outside_base"
          (other_years.map fun y => (y : ℚ))]
      else []
    else []

/-- The comparison of one consecutive pair of a time series.  This block
appears verbatim twice in the source (year columns, lines 795–830, and
year-labelled rows, lines 854–888); `data` records the two years and the
two values. -/
def variationStep (nome : Str) (y0 : Nat) (v0 : ℚ) (y1 : Nat) (v1 : ℚ) :
    List Finding :=
  if v0 = 0 then
    if 100 ≤ v1 then
      [make_issue .WARN .Tabela nome "jump_from_zero" [y0, v0, y1, v1]]
    else []
  else
    let pct := ((v1 - v0) / v0) * 100
    let apct := pyAbs pct
    if 500 < apct then
      [make_issue .FAIL .Tabela nome "extreme_year_variation" [y0, v0, y1, v1]]
    else if 300 < apct then
      [make_issue .WARN .Tabela nome "extreme_year_variation" [y0, v0, y1, v1]]
    else if 40 < apct then
      [make_issue .WARN .Tabela nome "abrupt_change" [y0, v0, y1, v1]]
    else []

/-- All consecutive-pair comparisons of one (year, value) series. -/
def variationSteps (nome : Str) : List (Nat × ℚ) → List Finding
  | (y0, v0) :: (y1, v1) :: rest =>
    variationStep nome y0 v0 y1 v1 ++ variationSteps nome ((y1, v1) :: rest)
  | _ => []

/-- Stable insertion sort by a natural-number key (Python `list.sort(key=...)`). -/
def insSortedBy {α : Type} (key : α → Nat) (x : α) : List α → List α
  | [] => [x]
  | y :: ys => if key x ≤ key y then x :: y :: ys else y :: insSortedBy key x ys

def sortByKey {α : Type} (key : α → Nat) : List α → List α
  | [] => []
  | x :: xs => insSortedBy key x (sortByKey key xs)

/-- `rule_extreme_variation`.  Case A: at least two year columns, compare
consecutive years within each row.  Case B: years running down the first
column, compare consecutive year rows within each metric column. -/
def rule_extreme_variation (table : TableRec) : List Finding :=
  let headers := table.headers
  let rows := table.rows_raw
  if headers = [] ∨ rows = [] then []
  else if ¬ (is_time_series_table table).1 then []
  else
    let year_cols := headers.enum.filterMap fun p =>
      if yearExact (normalize_text p.2) then
        some (p.1, digitsToNat (normalize_text p.2))
      else none
    if 2 ≤ year_cols.length then
      let ycs := sortByKey (fun p => p.2) year_cols
      rows.flatMap fun r =>
        if r = [] then []
        else
          let seq := ycs.filterMap fun p =>
            ((r.get? p.1).bind parse_number_ptbr).map fun n => (p.2, n)
          if seq.length < 2 then [] else variationSteps table.nome seq
    else
      let first_col_yearlike := (rows.filter fun r =>
        match r with
        | [] => false
        | c :: _ => yearExact (normalize_text c)).length
      if 2 ≤ first_col_yearlike ∧ 2 ≤ headers.length then
        let yrows := sortByKey (fun p => p.1) (rows.filterMap fun r =>
          match r with
          | [] => none
          | c :: _ =>
            if yearExact (normalize_text c) then
              some (digitsToNat (normalize_text c), r)
            else none)
        let maxLen := yrows.foldl (fun m p => max m p.2.length) 0
        ((List.range (min headers.length maxLen)).filter (1 ≤ ·)).flatMap fun col =>
          let series := yrows.filterMap fun p =>
            ((p.2.get? col).bind parse_number_ptbr).map fun n => (p.1, n)
          if series.length < 2 then [] else variationSteps table.nome series
      else []

/-!
## Nomenclature and spelling rules
-/

theorem dropWhileLenLe (p : Char → Bool) (l : Str) :
    (l.dropWhile p).length ≤ l.length := by
  induction l with
  | nil => simp [List.dropWhile]
  | cons c cs ih =>
    by_cases h : p c <;> simp [List.dropWhile, h] <;> omega

def isUpperAZ (c : Char) : Bool := 'A' ≤ c ∧ c ≤ 'Z'

def alnumUpper (c : Char) : Bool := isUpperAZ c ∨ isDig c

/-- Cased characters (ASCII and Latin-1 letters), for `str.isupper`. -/
def isCasedChar (c : Char) : Bool :=
  ('a' ≤ c ∧ c ≤ 'z') ∨ ('A' ≤ c ∧ c ≤ 'Z') ∨
  (0xC0 ≤ c.toNat ∧ c.toNat ≤ 0xFF ∧ c.toNat ≠ 0xD7 ∧ c.toNat ≠ 0xF7)

def isLowerCased (c : Char) : Bool :=
  ('a' ≤ c ∧ c ≤ 'z') ∨ (0xDF ≤ c.toNat ∧ c.toNat ≤ 0xFF ∧ c.toNat ≠ 0xF7)

/-- Python `str.isupper`: some cased character, no lowercase one. -/
def pyIsUpper (s : Str) : Bool := s.any isCasedChar ∧ s.all fun c => ¬ isLowerCased c

/-- Zero or more groups of a dash or slash followed by one to ten uppercase
alphanumerics, to the end of the string (for `fullmatch`). -/
def siglaGroupsAux (fuel : Nat) : Str → Bool
  | [] => true
  | c :: rest =>
    match fuel with
    | 0 => false
    | fuel + 1 =>
      if c = '-' ∨ c = '/' then
        let run := rest.takeWhile alnumUpper
        if 1 ≤ run.length ∧ run.length ≤ 10 then
          siglaGroupsAux fuel (rest.dropWhile alnumUpper)
        else false
      else false

def siglaGroups (s : Str) : Bool := siglaGroupsAux s.length s

/-- `SIGLA_RE.fullmatch`: two to ten uppercase letters followed by the
optional dash/slash groups. -/
def siglaFullmatch (s : Str) : Bool :=
  let run := s.takeWhile isUpperAZ
  2 ≤ run.length ∧ run.length ≤ 10 ∧ siglaGroups (s.dropWhile isUpperAZ)

def dashSeps : List Char := ['-', '–', '—']

/-- The `\s*[-–—]\s*(.+)$` tail of `SIGLA_NAME_RE`: the captured name is the
text after the separator (whitespace-only captures normalize to the same
empty string either way). -/
def siglaNameSep (sigla : Str) (rest : Str) : Option (Str × Str) :=
  match skipWs rest with
  | c :: r2 =>
    if dashSeps.contains c then
      if r2 = [] then none
      else some (sigla, if skipWs r2 = [] then r2 else skipWs r2)
    else none
  | [] => none

/-- Greedy group collection with backtracking for `SIGLA_NAME_RE`: keep
extending the acronym with dash/slash-plus-alphanumerics groups; if the rest cannot
match, drop back to a separator at the current position.  `fuel` bounds the
recursion by the string length. -/
def siglaNameAux (fuel : Nat) (sigla rest : Str) : Option (Str × Str) :=
  match fuel with
  | 0 => none
  | fuel + 1 =>
    match rest with
    | c :: r2 =>
      if c = '-' ∨ c = '/' then
        let run := r2.takeWhile alnumUpper
        if 1 ≤ run.length ∧ run.length ≤ 10 then
          match siglaNameAux fuel (sigla ++ c :: run) (r2.dropWhile alnumUpper) with
          | some p => some p
          | none => siglaNameSep sigla rest
        else siglaNameSep sigla rest
      else siglaNameSep sigla rest
    | [] => none

/-- `SIGLA_NAME_RE.match`: an acronym as in `SIGLA_RE`, a dash separator
with optional surrounding whitespace, and a non-empty captured name. -/
def siglaNameMatch (lab : Str) : Option (Str × Str) :=
  let run := lab.takeWhile isUpperAZ
  if 2 ≤ run.length ∧ run.length ≤ 10 then
    siglaNameAux (lab.length + 1) run (lab.dropWhile isUpperAZ)
  else none

/-- `\bDepto\b` at this position. -/
def deptoAt (prev : Option Char) : Str → Bool
  | 'D' :: 'e' :: 'p' :: 't' :: 'o' :: rest => ! wordPrev prev && ! wordHead rest
  | _ => false

/-- `\bDep\.\b` at this position: the trailing `\b` sits between `.` and a
word character, so a word character must follow the dot. -/
def depDotAt (prev : Option Char) : Str → Bool
  | 'D' :: 'e' :: 'p' :: '.' :: rest => ! wordPrev prev && wordHead rest
  | _ => false

/-- `\bEstut\b` at this position. -/
def estutAt (prev : Option Char) : Str → Bool
  | 'E' :: 's' :: 't' :: 'u' :: 't' :: rest => ! wordPrev prev && ! wordHead rest
  | _ => false

def abbrAux : Option Char → Str → Bool
  | prev, c :: cs =>
    deptoAt prev (c :: cs) ∨ depDotAt prev (c :: cs) ∨ estutAt prev (c :: cs) ∨
    abbrAux (some c) cs
  | _, [] => false

/-- `re.search(r"\bDepto\b|\bDep\.\b|\bEstut\b", lab)` as presence. -/
def abbrFound (lab : Str) : Bool := abbrAux none lab

/-- Adds `v` to the set stored under `k`, creating the key at the end on
first use (Python `dict`/`set` insertion-order semantics; only the key order
and set sizes are consumed downstream). -/
def assocAddSet (m : List (Str × List Str)) (k : Str) (v : Str) :
    List (Str × List Str) :=
  match m with
  | [] => [(k, [v])]
  | (k2, vs) :: rest =>
    if k2 = k then (k2, if vs.contains v then vs else vs ++ [v]) :: rest
    else (k2, vs) :: assocAddSet rest k v

/-- `rule_siglas_nomenclature`. -/
def rule_siglas_nomenclature (table : TableRec) : List Finding :=
  if table.rows_raw = [] then []
  else
    let labels := table.rows_raw.filterMap fun r =>
      match r with
      | [] => none
      | c :: _ => if normalize_text c = [] then none else some (normalize_text c)
    let brokenIssues := labels.filterMap fun lab =>
      if BROKEN_CHARS.any (fun ch => lab.contains ch) then
        some (make_issue .WARN .Tabela table.nome "encoding_error" [])
      else none
    let pairs := labels.filterMap siglaNameMatch
    let s2n := pairs.foldl
      (fun m p => assocAddSet m p.1 (normalize_key (normalize_text p.2))) []
    let n2s := pairs.foldl
      (fun m p => assocAddSet m (normalize_key (normalize_text p.2)) p.1) []
    let siglaIssues := s2n.filterMap fun p =>
      if 2 ≤ p.2.length then
        some (make_issue .WARN .Tabela table.nome "sigla_multiple_names" [])
      else none
    let nameIssues := n2s.filterMap fun p =>
      if 2 ≤ p.2.length then
        some (make_issue .WARN .Tabela table.nome "name_multiple_siglas" [])
      else none
    let abbrIssues :=
      if labels.any abbrFound then
        [make_issue .WARN .Tabela table.nome "irregular_abbreviations" []]
      else []
    let upper_hits := (labels.filter fun lab =>
      pyIsUpper lab ∧ 8 ≤ lab.length ∧ ¬ siglaFullmatch lab).length
    let upperIssues :=
      if max 2 (3 * labels.length / 10) ≤ upper_hits then
        [make_issue .WARN .Tabela table.nome "inconsistent_uppercase" []]
      else []
    brokenIssues ++ siglaIssues ++ nameIssues ++ abbrIssues ++ upperIssues

/-- Python `needle in hay` for strings: `needle` occurs contiguously. -/
def startsWithSeq : Str → Str → Bool
  | [], _ => true
  | _ :: _, [] => false
  | a :: as_, b :: bs => a = b && startsWithSeq as_ bs

def hasSub (needle : Str) : Str → Bool
  | [] => needle.isEmpty
  | c :: cs => startsWithSeq needle (c :: cs) || hasSub needle cs

/-- Character class of word characters or Latin-1 high characters, for the
long-token pattern. -/
def tokenChar (c : Char) : Bool :=
  pyIsWord c ∨ (0xC0 ≤ c.toNat ∧ c.toNat ≤ 0xFF)

/-- Maximal runs of `p`-characters. -/
def runsByAux (p : Char → Bool) (cur : Str) : Str → List Str
  | [] => if cur = [] then [] else [cur.reverse]
  | c :: cs =>
    if p c then runsByAux p (c :: cur) cs
    else if cur = [] then runsByAux p [] cs
    else cur.reverse :: runsByAux p [] cs

def runsBy (p : Char → Bool) (s : Str) : List Str := runsByAux p [] s

/-- `re.findall(r"\b[\wÀ-ÿ]{7,}\b", t)`: per maximal `[\wÀ-ÿ]` run, the `\b`
anchors trim non-word edge characters; keep the trimmed run if it has at
least seven characters. -/
def tokenRuns7 (t : Str) : List Str :=
  (runsBy tokenChar t).filterMap fun run =>
    let trimmed :=
      ((run.dropWhile fun c => ¬ pyIsWord c).reverse.dropWhile fun c =>
        ¬ pyIsWord c).reverse
    if 7 ≤ trimmed.length then some trimmed else none

/-- `re.search(r"\w+\.\w+", t)` as presence. -/
def gluedAux : Str → Bool
  | a :: '.' :: b :: rest => (pyIsWord a ∧ pyIsWord b) ∨ gluedAux ('.' :: b :: rest)
  | _ :: rest => gluedAux rest
  | [] => false

def gluedFound (t : Str) : Bool := gluedAux t

/-- `rule_spelling_typos`: the finding fires exactly when at least one cell
contributes a sample (suspect substring, long vowel-less token, or glued
abbreviation). -/
def rule_spelling_typos (table : TableRec) : List Finding :=
  if table.rows_raw = [] then []
  else
    let sampleHit := table.rows_raw.flatten.any fun c =>
      let t := normalize_text c
      if t = [] then false
      else
        let low := normalize_key t
        (SUSPECT_WORDS.any fun sw => hasSub sw low) ∨
        ((tokenRuns7 t).any fun tok =>
          let tl := normalize_key tok
          ¬ (tl ≠ [] ∧ tl.all isDig) ∧
          ¬ tl.any (fun c => c ∈ ['a', 'e', 'i', 'o', 'u'])) ∨
        gluedFound t
    if sampleHit then
      [make_issue .WARN .Tabela table.nome "possible_typos" []]
    else []

/-- `rule_structural_duplicate_tables`: the normalized serialized markup
stands for its MD5 hash. -/
def structDupAux : List TableRec → List (Str × Str) → List Finding
  | [], _ => []
  | t :: rest, seen =>
    if t.htmlNorm = [] then structDupAux rest seen
    else
      match assocFind t.htmlNorm seen with
      | some _ =>
        make_issue .WARN .Documento "Documento".data "duplicate_table_structure" []
          :: structDupAux rest seen
      | none => structDupAux rest ((t.htmlNorm, t.nome) :: seen)

def rule_structural_duplicate_tables (tables : List TableRec) : List Finding :=
  structDupAux tables []

/-!
## Figure rules
-/

/-- `rule_figure_source_required`. -/
def rule_figure_source_required (fig : FigureRec) : Option Finding :=
  if ¬ find_source_text fig.context_all then
    some (make_issue .FAIL .Figura fig.nome "figure_source_required" [])
  else none

/-- `rule_figure_year_base`. -/
def rule_figure_year_base (fig : FigureRec) (base_year : Nat) : Option Finding :=
  let ctx := fig.context_all
  let years := detect_years_in_text ctx
  if years = [] then none
  else
    match detect_year_range ctx with
    | some (a, b) =>
      if ¬ (min a b ≤ base_year ∧ base_year ≤ max a b) then
        some (make_issue .FAIL .Figura fig.nome "figure_year_range_mismatch"
          [a, b, base_year])
      else none
    | none =>
      let other := years.filter (· ≠ base_year)
      if other ≠ [] then
        some (make_issue .WARN .Figura fig.nome "figure_year_outside_base"
          ((sortedSetNat other).map fun y => (y : ℚ)))
      else none

/-!
## Document model and extraction (BeautifulSoup fragment)

A parsed HTML document is a forest of element and text nodes; the element's
attributes are name/value pairs.  `find_all` collects matching descendant
elements in document (pre-order) order; `get_text(" ", strip=True)` joins
the stripped non-empty descendant strings with single spaces; sibling
search skips bare text nodes (BeautifulSoup's `find_previous_sibling` /
`find_next_sibling` with no criteria return tags).
-/

inductive Node where
  | text (s : Str)
  | elem (tag : String) (attrs : List (String × Str)) (children : List Node)
deriving Repr

def Node.children : Node → List Node
  | .text _ => []
  | .elem _ _ cs => cs

def Node.tag : Node → Option String
  | .text _ => none
  | .elem t _ _ => some t

/-- `img.get(key, "")`. -/
def Node.attr (n : Node) (key : String) : Str :=
  match n with
  | .text _ => []
  | .elem _ attrs _ => (assocFind key attrs).getD []

mutual
def nodeStrings : Node → List Str
  | .text s => [s]
  | .elem _ _ cs => nodesStrings cs

def nodesStrings : List Node → List Str
  | [] => []
  | n :: ns => nodeStrings n ++ nodesStrings ns
end

/-- `get_text(" ", strip=True)`. -/
def getText (n : Node) : Str :=
  joinWords (((nodeStrings n).map pyStrip).filter (· ≠ []))

mutual
def findAllList (tags : List String) : List Node → List Node
  | [] => []
  | n :: ns => findAllInNode tags n ++ findAllList tags ns

def findAllInNode (tags : List String) : Node → List Node
  | .text _ => []
  | .elem t a cs =>
    (if tags.contains t then [Node.elem t a cs] else []) ++ findAllList tags cs
end

/-- A cell's text: `normalize_text(c.get_text(" ", strip=True))`. -/
def cellText (c : Node) : Str := normalize_text (getText c)

/-- Python's `f"col_{i}"` / `f"Tabela {i}"` positional labels. -/
def natToCharsAux (fuel n : Nat) (acc : Str) : Str :=
  match fuel with
  | 0 => acc
  | fuel + 1 =>
    if n < 10 then Char.ofNat (48 + n) :: acc
    else natToCharsAux fuel (n / 10) (Char.ofNat (48 + n % 10) :: acc)

def natToChars (n : Nat) : Str := natToCharsAux (n + 1) n []

/-- Trailing empty cells are popped off a row. -/
def trimTrailEmpty (row : List Str) : List Str :=
  (row.reverse.dropWhile (· = [])).reverse

/-- The row a `<tr>` element contributes, if any: its cell texts, unless
there are no cells, the row duplicates the headers, or it is empty after
trailing-empty-cell trimming. -/
def rowOfTr (headers : List Str) (tr : Node) : Option (List Str) :=
  let cells := findAllList ["th", "td"] tr.children
  if cells.isEmpty then none
  else
    let row := cells.map cellText
    if headers ≠ [] ∧ row.length = headers.length ∧
        (row.zip headers).all (fun p => normalize_key p.1 = normalize_key p.2) then
      none
    else
      let row := trimTrailEmpty row
      if row = [] then none else some row

/-- `extract_headers_and_rows`. -/
def extract_headers_and_rows (table_elem : Node) :
    List Str × List (List Str) :=
  let childs := table_elem.children
  let headers : List Str :=
    match (findAllList ["thead"] childs).head? with
    | some thead =>
      ((findAllList ["th"] thead.children).map cellText).filter (· ≠ [])
    | none =>
      match (findAllList ["tr"] childs).head? with
      | some first_tr =>
        let ths := findAllList ["th"] first_tr.children
        if ths.isEmpty then [] else ths.map cellText
      | none => []
  let trs := match (findAllList ["tbody"] childs).head? with
    | some tbody => findAllList ["tr"] tbody.children
    | none => findAllList ["tr"] childs
  let rows := trs.filterMap (rowOfTr headers)
  let headers :=
    if headers.isEmpty && ! rows.isEmpty then
      (List.range (match rows with | [] => 0 | r :: _ => r.length)).map fun i =>
        "col_".data ++ natToChars (i + 1)
    else headers
  (headers, rows)

/-- The sibling-walk stop tags of `collect_neighbor_text`. -/
def stopTags : List String := ["table", "figure", "h1", "h2", "h3"]

/-- The next tag sibling, with the siblings beyond it. -/
def nextTagSib : List Node → Option (Node × List Node)
  | [] => none
  | .text _ :: rest => nextTagSib rest
  | .elem t a cs :: rest => some (.elem t a cs, rest)

/-- One direction of `collect_neighbor_text`: walk up to `budget` tag
siblings, stop at a stop tag or the end, collect the non-empty normalized
texts in walk order. -/
def collectSide (budget : Nat) (sibs : List Node) : List Str :=
  match budget with
  | 0 => []
  | b + 1 =>
    match nextTagSib sibs with
    | none => []
    | some (e, rest) =>
      if stopTags.contains (e.tag.getD "") then []
      else
        let txt := normalize_text (getText e)
        (if txt ≠ [] then [txt] else []) ++ collectSide b rest

/-- `collect_neighbor_text` (`max_prev = 5`, `max_next = 10`): `prevRev` are
the earlier siblings nearest-first; the before-text is re-reversed into
document order. -/
def collect_neighbor_text (prevRev : List Node) (nextSibs : List Node) :
    Str × Str :=
  let before_parts := collectSide 5 prevRev
  let after_parts := collectSide 10 nextSibs
  (joinWords before_parts.reverse, joinWords after_parts)

def renderAttrs (attrs : List (String × Str)) : Str :=
  attrs.flatMap fun p => ' ' :: p.1.data ++ '=' :: '"' :: p.2 ++ ['"']

mutual
def renderNode : Node → Str
  | .text s => s
  | .elem t attrs cs =>
    '<' :: t.data ++ renderAttrs attrs ++ '>' :: renderNodes cs ++
      '<' :: '/' :: t.data ++ ['>']

def renderNodes : List Node → Str
  | [] => []
  | n :: ns => renderNode n ++ renderNodes ns
end

mutual
/-- Every `find_all(tag)` match of the forest, in document order, paired
with its earlier siblings (nearest first) and its later siblings — the
context `collect_neighbor_text` walks. -/
def siteWalk (tag : String) : List Node → List Node → List (List Node × Node × List Node)
  | _, [] => []
  | prevRev, n :: rest =>
    siteWalkNode tag prevRev n rest ++ siteWalk tag (n :: prevRev) rest

def siteWalkNode (tag : String) (prevRev : List Node) :
    Node → List Node → List (List Node × Node × List Node)
  | .text _, _ => []
  | .elem t a cs, rest =>
    (if t = tag then [(prevRev, Node.elem t a cs, rest)] else []) ++
    siteWalk tag [] cs
end

/-- The table record of `extract_tables_from_html` for one table element.
The raw markup snapshot and its MD5 content hash are represented by the
normalized serialized markup. -/
def tableCaption (elemN : Node) : Str :=
  match (findAllList ["caption"] elemN.children).head? with
  | some cap => normalize_text (getText cap)
  | none => []

def mkTableRec (idx : Nat) (prevRev : List Node) (elemN : Node)
    (nextSibs : List Node) : TableRec :=
  let caption := tableCaption elemN
  let table_name := if caption ≠ [] then caption
    else "Tabela ".data ++ natToChars idx
  let hr := extract_headers_and_rows elemN
  let bt := collect_neighbor_text prevRev nextSibs
  { numero := idx, nome := table_name, headers := hr.1, rows_raw := hr.2,
    htmlNorm := normalize_text (renderNode elemN),
    context_before := bt.1, context_after := bt.2,
    context_all := pyStrip (joinAll [bt.1, caption, bt.2]) }

/-- `extract_tables_from_html`. -/
def extract_tables_from_html (doc : List Node) : List TableRec :=
  (siteWalk "table" [] doc).enum.map fun p =>
    mkTableRec (p.1 + 1) p.2.1 p.2.2.1 p.2.2.2

/-- The figure record of `extract_figures_from_html` for one figure element. -/
def mkFigureRec (idx : Nat) (prevRev : List Node) (elemN : Node)
    (nextSibs : List Node) : FigureRec :=
  let caption := match (findAllList ["figcaption"] elemN.children).head? with
    | some cap => normalize_text (getText cap)
    | none => []
  let alt := match (findAllList ["img"] elemN.children).head? with
    | some img => normalize_text (img.attr "alt")
    | none => []
  let bt := collect_neighbor_text prevRev nextSibs
  let nome := if caption ≠ [] then caption
    else if alt ≠ [] then alt
    else "Figura/Gráfico ".data ++ natToChars idx
  { numero := idx, nome := nome, caption := caption, alt := alt,
    context_before := bt.1, context_after := bt.2,
    context_all := pyStrip (joinAll [bt.1, caption, alt, bt.2]),
    htmlNorm := normalize_text (renderNode elemN) }

/-- `extract_figures_from_html` (only `<figure>` elements; standalone images
are deliberately skipped in the source). -/
def extract_figures_from_html (doc : List Node) : List FigureRec :=
  (siteWalk "figure" [] doc).enum.map fun p =>
    mkFigureRec (p.1 + 1) p.2.1 p.2.2.1 p.2.2.2

/-- `rule_broken_chars_in_text`: the whole document's rendered text. -/
def docText (doc : List Node) : Str :=
  joinWords (((nodesStrings doc).map pyStrip).filter (· ≠ []))

def rule_broken_chars_in_text (doc : List Node) : List Finding :=
  BROKEN_CHARS.filterMap fun ch =>
    if (docText doc).contains ch then
      some (make_issue .WARN .Documento "Documento".data "encoding_error" [])
    else none

/-!
## Orchestration (`analyze_table`, `run_audit`)
-/

/-- `analyze_table`: the fixed rule order of the source. -/
def analyze_table (table : TableRec) (base_year : Nat) : List Finding :=
  (rule_table_empty table).toList ++
  (rule_table_without_data table).toList ++
  rule_blank_cells table ++
  (rule_source_required table).toList ++
  (rule_source_style_inconsistency table).toList ++
  rule_totals table ++
  rule_year_base_mentions table base_year ++
  (rule_numeric_format_inconsistency table).toList ++
  (rule_duplicate_rows_strict table).toList ++
  rule_extreme_variation table ++
  rule_siglas_nomenclature table ++
  rule_spelling_typos table

/-- `run_audit` after the download step: the input is the parsed document
(the empty page parses to no nodes, which is the source's falsy-HTML
`download_failed` early return); `report_year` is not consumed by any rule
and is omitted.  The table count is `len(soup.find_all("table"))` as in
`download_page`. -/
def run_audit (doc : List Node) (base_year : Nat) : List Finding :=
  if doc.isEmpty then
    [make_issue .FAIL .Documento "Documento".data "download_failed" []]
  else
    let contagem := (findAllList ["table"] doc).length
    let headIssue :=
      if contagem = 0 then
        make_issue .FAIL .Documento "Documento".data "no_tables" []
      else
        make_issue .PASS .Documento "Documento".data "document_ok" [contagem]
    let tables := extract_tables_from_html doc
    let figs := extract_figures_from_html doc
    headIssue ::
      (rule_broken_chars_in_text doc ++
       rule_structural_duplicate_tables tables ++
       tables.flatMap (fun t => analyze_table t base_year) ++
       figs.flatMap fun f =>
         (rule_figure_source_required f).toList ++
         (rule_figure_year_base f base_year).toList)

/-!
## General lemmas about the text pipeline
-/

theorem ratVal_int (m : Nat) : ratVal m 0 false = (m : ℚ) := by
  simp [ratVal]

theorem ratVal_neg_int (m : Nat) : ratVal m 0 true = -(m : ℚ) := by
  simp [ratVal]

theorem ratVal_eval (m k : Nat) : ratVal m k false = (m : ℚ) / 10 ^ k := by
  simp [ratVal]

theorem isDig_val {c : Char} (h : isDig c = true) :
    48 ≤ c.toNat ∧ c.toNat ≤ 57 := by
  simp [isDig, Char.le_def] at h
  exact ⟨h.1, h.2⟩

theorem pyIsSpace_of_dig {c : Char} (h : isDig c = true) : pyIsSpace c = false := by
  have hv := isDig_val h
  simp [pyIsSpace]
  omega

/-- `wordsAux` on a whitespace-free suffix. -/
theorem wordsAux_no_ws (s : Str) (h : ∀ c ∈ s, pyIsSpace c = false) :
    ∀ cur : Str, (cur ≠ [] ∨ s ≠ []) → wordsAux cur s = [cur.reverse ++ s] := by
  induction s with
  | nil =>
    intro cur hc
    rcases hc with hc | hc
    · simp [wordsAux, hc]
    · exact absurd rfl hc
  | cons c cs ih =>
    intro cur _
    have hc : pyIsSpace c = false := h c (List.mem_cons_self c cs)
    have ihcs := ih (fun x hx => h x (List.mem_cons_of_mem c hx)) (c :: cur)
      (Or.inl (by simp))
    simp [wordsAux, hc, ihcs]

/-- Non-breaking-space replacement is the identity on whitespace-free strings. -/
theorem map_nbsp_id (s : Str) (h : ∀ c ∈ s, pyIsSpace c = false) :
    (s.map fun c => if c.toNat = 0xa0 then ' ' else c) = s := by
  induction s with
  | nil => rfl
  | cons c cs ih =>
    have hc := h c (List.mem_cons_self c cs)
    have hna : ¬ c.toNat = 0xa0 := fun habs => by simp [pyIsSpace, habs] at hc
    simp only [List.map_cons, if_neg hna,
      ih fun x hx => h x (List.mem_cons_of_mem c hx)]

/-- `normalize_text` is the identity on non-empty whitespace-free strings. -/
theorem normalize_no_ws (s : Str) (hne : s ≠ [])
    (h : ∀ c ∈ s, pyIsSpace c = false) : normalize_text s = s := by
  have hmap : (s.map fun c => if c.toNat = 0xa0 then ' ' else c) = s :=
    map_nbsp_id s h
  rw [normalize_text, hmap, pyWords, wordsAux_no_ws s h [] (Or.inr hne)]
  simp [joinWords]

/-- `pyStrip` is the identity on whitespace-free strings. -/
theorem pyStrip_no_ws (s : Str) (h : ∀ c ∈ s, pyIsSpace c = false) :
    pyStrip s = s := by
  have h1 : s.dropWhile pyIsSpace = s := by
    cases s with
    | nil => rfl
    | cons c cs =>
      rw [List.dropWhile_cons]
      simp [h c (List.mem_cons_self c cs)]
  have h2 : s.reverse.dropWhile pyIsSpace = s.reverse := by
    cases hr : s.reverse with
    | nil => rfl
    | cons c cs =>
      rw [List.dropWhile_cons]
      have : c ∈ s := by
        have : c ∈ s.reverse := by rw [hr]; exact List.mem_cons_self c cs
        simpa using this
      simp [h c this]
  rw [pyStrip, h1, h2, List.reverse_reverse]

theorem filter_eq_self_of_mem {p : Char → Bool} {s : Str}
    (h : ∀ c ∈ s, p c = true) : s.filter p = s :=
  List.filter_eq_self.mpr h

theorem dotGroups_chars (s : Str) (h : dotGroups s = true) :
    ∀ c ∈ s, isDig c = true ∨ c = '.' := by
  induction s using dotGroups.induct with
  | case1 d a b c rest ih =>
    simp only [dotGroups, Bool.decide_and, Bool.and_eq_true, decide_eq_true_eq] at h
    obtain ⟨hd, ha, hb, hc, hrest⟩ := h
    intro x hx
    simp only [List.mem_cons] at hx
    rcases hx with rfl | rfl | rfl | rfl | hx
    · right; exact hd
    · left; exact ha
    · left; exact hb
    · left; exact hc
    · rcases hrest with hrest | hrest
      · subst hrest; simp at hx
      · exact ih hrest x hx
  | case2 s hs =>
    exfalso
    rcases s with _ | ⟨c0, _ | ⟨c1, _ | ⟨c2, _ | ⟨c3, rest⟩⟩⟩⟩
    · simp [dotGroups] at h
    · simp [dotGroups] at h
    · simp [dotGroups] at h
    · simp [dotGroups] at h
    · exact hs c0 c1 c2 c3 rest rfl

theorem thousandDotMatch_chars (s : Str) (h : thousandDotMatch s = true) :
    (∃ a rest, s = a :: rest ∧ isDig a = true) ∧
    ∀ c ∈ s, isDig c = true ∨ c = '.' := by
  rcases s with _ | ⟨a, _ | ⟨b, _ | ⟨c, rest3⟩⟩⟩
  · simp [thousandDotMatch] at h
  · by_cases ha : isDig a = true <;> simp [thousandDotMatch, ha] at h
  · by_cases ha : isDig a = true
    · by_cases hb : isDig b = true <;>
        simp [thousandDotMatch, ha, hb, dotGroups] at h
    · simp [thousandDotMatch, ha] at h
  · by_cases ha : isDig a = true
    · refine ⟨⟨a, _, rfl, ha⟩, ?_⟩
      intro x hx
      simp only [List.mem_cons] at hx
      by_cases hb : isDig b = true
      · by_cases hc : isDig c = true
        · have hd : dotGroups rest3 = true := by
            simpa [thousandDotMatch, ha, hb, hc] using h
          rcases hx with rfl | rfl | rfl | hx
          · exact Or.inl ha
          · exact Or.inl hb
          · exact Or.inl hc
          · exact dotGroups_chars rest3 hd x hx
        · have hd : dotGroups (c :: rest3) = true := by
            simpa [thousandDotMatch, ha, hb, hc] using h
          rcases hx with rfl | rfl | hx
          · exact Or.inl ha
          · exact Or.inl hb
          · exact dotGroups_chars _ hd x (by simpa using hx)
      · have hd : dotGroups (b :: c :: rest3) = true := by
          simpa [thousandDotMatch, ha, hb] using h
        rcases hx with rfl | hx
        · exact Or.inl ha
        · exact dotGroups_chars _ hd x (by simpa using hx)
    · simp [thousandDotMatch, ha] at h

theorem parse_thousandDot (s : Str) (h : thousandDotMatch s = true) :
    parse_number_ptbr s = some ((digitsToNat (s.filter (· ≠ '.')) : Nat) : ℚ) := by
  obtain ⟨⟨a, rest, hs, ha⟩, hchars⟩ := thousandDotMatch_chars s h
  have hnws : ∀ c ∈ s, pyIsSpace c = false := by
    intro c hc
    rcases hchars c hc with hd | rfl
    · exact pyIsSpace_of_dig hd
    · decide
  have hne : s ≠ [] := by subst hs; simp
  have hnorm : normalize_text s = s := normalize_no_ws s hne hnws
  have hmem : s ∉ EMPTY_MARKERS := by
    subst hs
    intro hmem
    simp only [EMPTY_MARKERS, List.mem_cons, List.not_mem_nil, or_false] at hmem
    rcases hmem with hc | hc | hc | hc | hc
    · exact List.cons_ne_nil a rest hc
    all_goals (injection hc with h1 h2; rw [h1] at ha; exact absurd ha (by decide))
  have hmark : EMPTY_MARKERS.contains s = false := by
    simpa using hmem
  have hf1 : s.filter (fun c => decide (c ≠ '%')) = s := by
    apply filter_eq_self_of_mem
    intro c hc
    rcases hchars c hc with hd | rfl
    · simp only [decide_eq_true_eq]
      intro he
      rw [he] at hd
      exact absurd hd (by decide)
    · decide
  have hf2 : s.filter (fun c => decide ¬(c = 'R' ∨ c = '$' ∨ c = '€' ∨ c = '£')) = s := by
    apply filter_eq_self_of_mem
    intro c hc
    rcases hchars c hc with hd | rfl
    · simp only [decide_not, decide_eq_true_eq, Bool.not_eq_true', decide_eq_false_iff_not]
      push_neg
      refine ⟨?_, ?_, ?_, ?_⟩ <;> (intro he; rw [he] at hd; exact absurd hd (by decide))
    · decide
  have hstrip : pyStrip s = s := pyStrip_no_ws s hnws
  have hpar : ¬ (s.head? = some '(' ∧ s.getLast? = some ')') := by
    subst hs
    rintro ⟨hh, -⟩
    simp only [List.head?_cons, Option.some.injEq] at hh
    rw [hh] at ha
    exact absurd ha (by decide)
  have hmin : ¬ (s.head? = some '-') := by
    subst hs
    intro hh
    simp only [List.head?_cons, Option.some.injEq] at hh
    rw [hh] at ha
    exact absurd ha (by decide)
  rw [parse_number_ptbr]
  simp only [hnorm, hmark, hf1, hf2, hstrip, if_neg hne, Bool.false_eq_true, if_false]
  rw [parseSigned]
  simp only [if_neg hpar, hmin, if_false, hstrip, if_neg hmin]
  simp only [h, if_true, ratVal_int]

theorem pyStrip_space_cons (t : Str) (ht : ∀ c ∈ t, pyIsSpace c = false) :
    pyStrip (' ' :: t) = t := by
  have h1 : (' ' :: t).dropWhile pyIsSpace = t.dropWhile pyIsSpace := by
    rw [List.dropWhile_cons, if_pos (by decide : pyIsSpace ' ' = true)]
  have h2 : t.dropWhile pyIsSpace = t := by
    cases t with
    | nil => rfl
    | cons c cs =>
      rw [List.dropWhile_cons]
      simp [ht c (List.mem_cons_self c cs)]
  have h3 : t.reverse.dropWhile pyIsSpace = t.reverse := by
    cases hr : t.reverse with
    | nil => rfl
    | cons c cs =>
      rw [List.dropWhile_cons]
      have : c ∈ t := by
        have : c ∈ t.reverse := by rw [hr]; exact List.mem_cons_self c cs
        simpa using this
      simp [ht c this]
  rw [pyStrip, h1, h2, h3, List.reverse_reverse]

theorem wordsAux_app_space (t : Str) (ht : ∀ c ∈ t, pyIsSpace c = false)
    (htne : t ≠ []) :
    ∀ (m cur : Str), (∀ c ∈ m, pyIsSpace c = false) → (cur ≠ [] ∨ m ≠ []) →
      wordsAux cur (m ++ ' ' :: t) = [cur.reverse ++ m, t] := by
  intro m
  induction m with
  | nil =>
    intro cur hm hor
    have hcur : cur ≠ [] := by
      rcases hor with hc | hc
      · exact hc
      · exact absurd rfl hc
    have hws : wordsAux ([] : Str) t = [t] := wordsAux_no_ws t ht [] (Or.inr htne)
    show wordsAux cur (' ' :: t) = _
    rw [wordsAux, if_pos (by decide : pyIsSpace ' ' = true), if_neg hcur, hws]
    simp
  | cons c m' ih =>
    intro cur hm hor
    have hc : pyIsSpace c = false := hm c (List.mem_cons_self c m')
    have hih := ih (c :: cur) (fun x hx => hm x (List.mem_cons_of_mem c hx))
      (Or.inl (by simp))
    rw [List.cons_append, wordsAux, hc]
    simp only [Bool.false_eq_true, if_false]
    rw [hih]
    simp

/-- The currency characters are deleted wherever they occur; with a marker
followed by a space and a digits/dots/commas literal, parsing reduces to
parsing the bare literal. -/
theorem parse_currency (t : Str) (htne : t ≠ [])
    (hch : ∀ c ∈ t, isDig c = true ∨ c = '.' ∨ c = ',') :
    ∀ m ∈ ([['R', '$'], ['€'], ['£']] : List Str),
      parse_number_ptbr (m ++ ' ' :: t) = parse_number_ptbr t := by
  have htws : ∀ c ∈ t, pyIsSpace c = false := by
    intro c hc
    rcases hch c hc with hd | rfl | rfl
    · exact pyIsSpace_of_dig hd
    · decide
    · decide
  have htpct : ∀ c ∈ t, (fun c => decide (c ≠ '%')) c = true := by
    intro c hc
    rcases hch c hc with hd | rfl | rfl
    · simp only [decide_eq_true_eq]
      intro he; rw [he] at hd; exact absurd hd (by decide)
    · decide
    · decide
  have htcur : ∀ c ∈ t,
      (fun c => decide ¬(c = 'R' ∨ c = '$' ∨ c = '€' ∨ c = '£')) c = true := by
    intro c hc
    rcases hch c hc with hd | rfl | rfl
    · simp only [decide_not, Bool.not_eq_true', decide_eq_false_iff_not]
      push_neg
      refine ⟨?_, ?_, ?_, ?_⟩ <;> (intro he; rw [he] at hd; exact absurd hd (by decide))
    · decide
    · decide
  have hmemt : t ∉ EMPTY_MARKERS := by
    intro hmem
    rcases t with _ | ⟨a, rest⟩
    · exact htne rfl
    simp only [EMPTY_MARKERS, List.mem_cons, List.not_mem_nil, or_false] at hmem
    have ha := hch a (List.mem_cons_self a rest)
    rcases hmem with hc | hc | hc | hc | hc
    · exact List.cons_ne_nil a rest hc
    all_goals
      injection hc with h1 h2
      rcases ha with hd | rfl | rfl
      · rw [h1] at hd; exact absurd hd (by decide)
      · exact absurd h1 (by decide)
      · exact absurd h1 (by decide)
  have hparse_t : parse_number_ptbr t = parseSigned t := by
    rw [parse_number_ptbr]
    have hnorm : normalize_text t = t := normalize_no_ws t htne htws
    have hmark : EMPTY_MARKERS.contains t = false := by simpa using hmemt
    simp only [hnorm, hmark, filter_eq_self_of_mem htpct,
      filter_eq_self_of_mem htcur, pyStrip_no_ws t htws, if_neg htne,
      Bool.false_eq_true, if_false]
  intro m hm
  have hmws : ∀ c ∈ m, pyIsSpace c = false := by
    simp only [List.mem_cons, List.not_mem_nil, or_false] at hm
    rcases hm with rfl | rfl | rfl <;> decide
  have hne2 : m ++ ' ' :: t ≠ [] := by
    rcases m with _ | ⟨c, cs⟩ <;> simp
  have hnorm2 : normalize_text (m ++ ' ' :: t) = m ++ ' ' :: t := by
    rw [normalize_text]
    have hmapm : (m.map fun c => if c.toNat = 0xa0 then ' ' else c) = m :=
      map_nbsp_id m hmws
    have hmapt : (t.map fun c => if c.toNat = 0xa0 then ' ' else c) = t :=
      map_nbsp_id t htws
    have hmne : m ≠ [] := by
      simp only [List.mem_cons, List.not_mem_nil, or_false] at hm
      rcases hm with rfl | rfl | rfl <;> simp
    rw [List.map_append, hmapm, List.map_cons, hmapt]
    simp only [show ((' ' : Char).toNat = 0xa0) = False by simp, if_false]
    rw [pyWords, wordsAux_app_space t htws htne m [] hmws (Or.inr hmne)]
    simp [joinWords]
  have hmem2 : (m ++ ' ' :: t) ∉ EMPTY_MARKERS := by
    simp only [List.mem_cons, List.not_mem_nil, or_false] at hm
    intro hmem
    simp only [EMPTY_MARKERS, List.mem_cons, List.not_mem_nil, or_false] at hmem
    rcases hm with rfl | rfl | rfl <;>
      (rcases hmem with hc | hc | hc | hc | hc <;> simp at hc)
  have hpct2 : ∀ c ∈ m ++ ' ' :: t, (fun c => decide (c ≠ '%')) c = true := by
    intro c hc
    simp only [List.mem_cons, List.not_mem_nil, or_false] at hm
    rcases List.mem_append.mp hc with hcm | hct
    · rcases hm with rfl | rfl | rfl <;>
        (simp only [List.mem_cons, List.not_mem_nil, or_false] at hcm
         rcases hcm with rfl | rfl <;> decide)
    · rcases List.mem_cons.mp hct with rfl | hct2
      · decide
      · exact htpct c hct2
  have hmne2 : m ≠ [] := by
    simp only [List.mem_cons, List.not_mem_nil, or_false] at hm
    rcases hm with rfl | rfl | rfl <;> simp
  have hstrip2 : pyStrip (m ++ ' ' :: t) = m ++ ' ' :: t := by
    have hh : ∀ c, (m ++ ' ' :: t).head? = some c → pyIsSpace c = false := by
      intro c hc
      rcases m with _ | ⟨c0, cs⟩
      · exact absurd rfl hmne2
      · simp only [List.cons_append, List.head?_cons, Option.some.injEq] at hc
        exact hc ▸ hmws c0 (List.mem_cons_self c0 cs)
    have hl : ∀ c, (m ++ ' ' :: t).getLast? = some c → pyIsSpace c = false := by
      intro c hc
      rw [List.getLast?_append_of_ne_nil m (by simp)] at hc
      rcases List.mem_cons.mp (List.mem_of_mem_getLast? hc) with rfl | hct
      · rcases t with _ | ⟨t0, ts⟩
        · exact absurd rfl htne
        · rw [List.getLast?_cons_cons] at hc
          exact htws _ (List.mem_of_mem_getLast? hc)
      · exact htws c hct
    -- strip is identity when both ends are not whitespace
    rw [pyStrip]
    have h1 : (m ++ ' ' :: t).dropWhile pyIsSpace = m ++ ' ' :: t := by
      cases he : m ++ ' ' :: t with
      | nil => rfl
      | cons c cs =>
        rw [List.dropWhile_cons]
        have : (m ++ ' ' :: t).head? = some c := by rw [he]; rfl
        simp [hh c this]
    have h2 : (m ++ ' ' :: t).reverse.dropWhile pyIsSpace = (m ++ ' ' :: t).reverse := by
      cases he : (m ++ ' ' :: t).reverse with
      | nil => rfl
      | cons c cs =>
        rw [List.dropWhile_cons]
        have : (m ++ ' ' :: t).getLast? = some c := by
          rw [← List.head?_reverse, he]; rfl
        simp [hl c this]
    rw [h1, h2, List.reverse_reverse]
  have hcur2 : (m ++ ' ' :: t).filter
      (fun c => decide ¬(c = 'R' ∨ c = '$' ∨ c = '€' ∨ c = '£')) = ' ' :: t := by
    rw [List.filter_append]
    have hfm : m.filter (fun c => decide ¬(c = 'R' ∨ c = '$' ∨ c = '€' ∨ c = '£')) = [] := by
      simp only [List.mem_cons, List.not_mem_nil, or_false] at hm
      rcases hm with rfl | rfl | rfl <;> decide
    rw [hfm]
    simp only [List.nil_append, List.filter_cons]
    simp only [show (decide ¬((' ' : Char) = 'R' ∨ (' ' : Char) = '$' ∨
      (' ' : Char) = '€' ∨ (' ' : Char) = '£')) = true from by decide, if_true]
    rw [filter_eq_self_of_mem htcur]
  rw [parse_number_ptbr]
  simp only [hnorm2, show EMPTY_MARKERS.contains (m ++ ' ' :: t) = false by simpa using hmem2,
    filter_eq_self_of_mem hpct2, hstrip2, hcur2, if_neg hne2, Bool.false_eq_true, if_false]
  rw [pyStrip_space_cons t htws, hparse_t]

/-!
## The claims
-/

/-- **C1**: the numeric parser applies its format patterns in priority
order, checking thousand-grouped integers before loose decimal-dot: every
string matching `^\d{1,3}(\.\d{3})+$` parses to the integer obtained by
stripping the dots; in particular `parse_number_ptbr "1.769.277" = 1769277`,
`parse_number_ptbr "10.490,50" = 10490.50`, and
`parse_number_ptbr "8.5" = 8.5` (not `85`). -/
theorem C1_parse_priority :
    (∀ s : Str, thousandDotMatch s = true →
      parse_number_ptbr s = some ((digitsToNat (s.filter (· ≠ '.')) : Nat) : ℚ)) ∧
    parse_number_ptbr "1.769.277".data = some 1769277 ∧
    parse_number_ptbr "10.490,50".data = some (10490.50 : ℚ) ∧
    parse_number_ptbr "8.5".data = some (8.5 : ℚ) := by
  refine ⟨parse_thousandDot, ?_, ?_, ?_⟩
  · rw [show parse_number_ptbr "1.769.277".data = some (ratVal 1769277 0 false)
      from rfl, ratVal_int]
    norm_num
  · rw [show parse_number_ptbr "10.490,50".data = some (ratVal 1049050 2 false)
      from rfl, ratVal_eval]
    norm_num
  · rw [show parse_number_ptbr "8.5".data = some (ratVal 85 1 false)
      from rfl, ratVal_eval]
    norm_num

/-- Witness for C1: the thousand-grouped string `"1.234"` parses as the
integer 1234, not the float 1.234. -/
theorem C1_parse_priority_witness :
    thousandDotMatch "1.234".data = true ∧
    parse_number_ptbr "1.234".data =
      some ((digitsToNat ("1.234".data.filter (· ≠ '.')) : Nat) : ℚ) ∧
    digitsToNat ("1.234".data.filter (· ≠ '.')) = 1234 :=
  ⟨by decide, C1_parse_priority.1 "1.234".data (by decide), by decide⟩

/-- **C10**: the parser strips currency symbols before matching: for a
currency marker (`R$`, euro or pound sign) followed by a space and a PT-BR
numeric literal, the parse equals the bare literal's parse, e.g.
`parse_number_ptbr "R$ 1.234" = 1234`; the stripping removes `R`, `$`, `€`
and `£` wherever they occur, e.g. `parse_number_ptbr "5€5" = 55`. -/
theorem C10_currency_stripping :
    (∀ t : Str, t ≠ [] → (∀ c ∈ t, isDig c = true ∨ c = '.' ∨ c = ',') →
      ∀ m ∈ ([['R', '$'], ['€'], ['£']] : List Str),
        parse_number_ptbr (m ++ ' ' :: t) = parse_number_ptbr t) ∧
    parse_number_ptbr "R$ 1.234".data = some 1234 ∧
    parse_number_ptbr "5€5".data = some 55 := by
  refine ⟨fun t htne hch m hm => parse_currency t htne hch m hm, ?_, ?_⟩
  · rw [show parse_number_ptbr "R$ 1.234".data = some (ratVal 1234 0 false)
      from rfl, ratVal_int]
    norm_num
  · rw [show parse_number_ptbr "5€5".data = some (ratVal 55 0 false)
      from rfl, ratVal_int]
    norm_num

/-- Witness for C10: `parse_number_ptbr "R$ 1.234"` equals
`parse_number_ptbr "1.234"`. -/
theorem C10_currency_stripping_witness :
    parse_number_ptbr (['R', '$'] ++ ' ' :: "1.234".data) =
      parse_number_ptbr "1.234".data :=
  C10_currency_stripping.1 "1.234".data (by decide) (by decide)
    ['R', '$'] (by decide)

/-- **C6**: in the year-variation rule, a consecutive pair starting at zero
never computes a percentage: the comparison step at `v0 = 0` yields exactly
one `jump_from_zero` WARN when `v1 ≥ 100` and nothing otherwise — never an
`extreme_year_variation` or `abrupt_change` percentage finding. -/
theorem C6_zero_start_step :
    (∀ (nome : Str) (y0 y1 : Nat) (v1 : ℚ),
      variationStep nome y0 0 y1 v1 =
        if 100 ≤ v1 then
          [make_issue .WARN .Tabela nome "jump_from_zero" [(y0 : ℚ), 0, y1, v1]]
        else []) ∧
    ("jump_from_zero" : String) ≠ "extreme_year_variation" ∧
    ("jump_from_zero" : String) ≠ "abrupt_change" := by
  refine ⟨fun nome y0 y1 v1 => ?_, by decide, by decide⟩
  simp [variationStep]

def tblMath : TableRec :=
  ⟨1, "T".data, ["A".data, "B".data, "C".data],
   [["Math".data, "10".data, "20".data], ["Math".data, "10".data, "20".data]],
   [], [], [], []⟩

def tblPhys : TableRec :=
  ⟨1, "T".data, ["A".data, "B".data, "C".data],
   [["Math".data, "10".data, "20".data], ["Physics".data, "10".data, "20".data]],
   [], [], [], []⟩

def tblMathDiff : TableRec :=
  ⟨1, "T".data, ["A".data, "B".data, "C".data],
   [["Math".data, "10".data, "20".data], ["Math".data, "10".data, "21".data]],
   [], [], [], []⟩

theorem assocFind_some_mem {α β : Type} [DecidableEq α] {k : α} {l : List (α × β)}
    {v : β} (h : assocFind k l = some v) : (k, v) ∈ l := by
  induction l with
  | nil => simp [assocFind] at h
  | cons p rest ih =>
    obtain ⟨p1, p2⟩ := p
    rw [assocFind] at h
    by_cases hk : p1 = k
    · rw [if_pos hk] at h
      injection h with h
      subst hk; subst h
      exact List.mem_cons_self _ rest
    · rw [if_neg hk] at h
      exact List.mem_cons_of_mem _ (ih h)

/-- The duplicate-row scan returns nothing when the seen signatures and the
remaining rows all carry pairwise distinct normalized labels. -/
theorem dupRowsAux_none (nome : Str) :
    ∀ (rows : List (List Str)) (i : Nat)
      (seen : List ((Str × List Str) × Nat)),
      (∀ p ∈ seen, ∀ r ∈ rows, r ≠ [] → p.1.1 ≠ (rowSig r).1) →
      rows.Pairwise (fun r1 r2 => r1 ≠ [] → r2 ≠ [] →
        (rowSig r1).1 ≠ (rowSig r2).1) →
      dupRowsAux nome rows i seen = none := by
  intro rows
  induction rows with
  | nil => intro i seen _ _; rfl
  | cons r rest ih =>
    intro i seen hseen hpw
    rw [dupRowsAux]
    rcases List.pairwise_cons.mp hpw with ⟨hr, hpw'⟩
    by_cases hre : r = []
    · rw [if_pos hre]
      exact ih (i + 1) seen
        (fun p hp r' hr' => hseen p hp r' (List.mem_cons_of_mem r hr')) hpw'
    · rw [if_neg hre]
      cases hfind : assocFind (rowSig r) seen with
      | some j =>
        exfalso
        have hmem := assocFind_some_mem hfind
        exact hseen _ hmem r (List.mem_cons_self r rest) hre rfl
      | none =>
        refine ih (i + 1) ((rowSig r, i) :: seen) ?_ hpw'
        intro p hp r' hr' hr'e
        rcases List.mem_cons.mp hp with rfl | hp'
        · exact hr r' hr' hre hr'e
        · exact hseen p hp' r' (List.mem_cons_of_mem r hr') hr'e

/-- **C7**: the strict duplicate-row rule flags only rows agreeing in both
the normalized first-cell label and the remaining cells: any table whose
rows have pairwise distinct normalized labels yields no finding; two
identical `Math` rows yield one WARN, while equal values under `Math`
versus `Physics` (or `Math` rows with different values) yield none. -/
theorem C7_duplicate_rows_strict :
    (∀ table : TableRec,
      table.rows_raw.Pairwise (fun r1 r2 => r1 ≠ [] → r2 ≠ [] →
        (rowSig r1).1 ≠ (rowSig r2).1) →
      rule_duplicate_rows_strict table = none) ∧
    rule_duplicate_rows_strict tblMath =
      some (make_issue .WARN .Tabela "T".data "duplicated_row" [1, 2]) ∧
    rule_duplicate_rows_strict tblPhys = none ∧
    rule_duplicate_rows_strict tblMathDiff = none := by
  refine ⟨fun table hpw => ?_, by decide, by decide, by decide⟩
  rw [rule_duplicate_rows_strict]
  by_cases hc : table.rows_raw = [] ∨ table.rows_raw.length < 2
  · rw [if_pos hc]
  · rw [if_neg hc]
    exact dupRowsAux_none table.nome table.rows_raw 1 [] (by simp) hpw

/-- Witness for C7: the `Math`/`Physics` table has pairwise distinct labels
and indeed produces no finding. -/
theorem C7_duplicate_rows_strict_witness :
    rule_duplicate_rows_strict tblPhys = none :=
  C7_duplicate_rows_strict.1 tblPhys (by decide)

theorem dropWhile_nil_head (l : List (List Char)) (x : List Char)
    (xs : List (List Char)) (h : l.dropWhile (· = []) = x :: xs) : x ≠ [] := by
  induction l with
  | nil => simp at h
  | cons a as ih =>
    rw [List.dropWhile_cons] at h
    by_cases ha : a = []
    · rw [if_pos (by simp [ha])] at h; exact ih h
    · rw [if_neg (by simp [ha])] at h
      injection h with h1 _
      rw [← h1]; exact ha

/-- After trimming, the last cell of a non-empty row is non-empty. -/
theorem trimTrailEmpty_getLast {l : List Str} {c : Str}
    (h : (trimTrailEmpty l).getLast? = some c) : c ≠ [] := by
  rw [trimTrailEmpty, List.getLast?_reverse] at h
  cases hd : l.reverse.dropWhile (· = []) with
  | nil => rw [hd] at h; simp at h
  | cons x xs =>
    rw [hd] at h
    simp only [List.head?_cons, Option.some.injEq] at h
    rw [← h]
    exact dropWhile_nil_head l.reverse x xs hd

/-- A row contributed by a `<tr>` is non-empty with a non-empty last cell. -/
theorem rowOfTr_invariant {headers : List Str} {tr : Node} {r : List Str}
    (h : rowOfTr headers tr = some r) :
    r ≠ [] ∧ ∀ c, r.getLast? = some c → c ≠ [] := by
  rw [rowOfTr] at h
  by_cases h1 : (findAllList ["th", "td"] tr.children).isEmpty
  · rw [if_pos h1] at h; exact absurd h (by simp)
  · rw [if_neg h1] at h
    set row := (findAllList ["th", "td"] tr.children).map cellText with hrow
    by_cases h2 : headers ≠ [] ∧ row.length = headers.length ∧
        (row.zip headers).all (fun p => normalize_key p.1 = normalize_key p.2)
    · rw [if_pos h2] at h; exact absurd h (by simp)
    · rw [if_neg h2] at h
      by_cases h3 : trimTrailEmpty row = []
      · rw [if_pos h3] at h; exact absurd h (by simp)
      · rw [if_neg h3] at h
        injection h with h
        subst h
        exact ⟨h3, fun c hc => trimTrailEmpty_getLast hc⟩

def tblRagged : Node := .elem "table" []
  [.elem "tr" [] [.elem "td" [] [.text "X".data], .elem "td" [] [.text "1".data],
    .elem "td" [] [.text "".data], .elem "td" [] [.text " ".data]],
   .elem "tr" [] [.elem "td" [] [.text "".data], .elem "td" [] [.text "".data]],
   .elem "tr" [] [.elem "td" [] [.text "Y".data]]]

/-- **C9**: every extracted row is a non-empty sequence whose last cell is
non-empty (trailing empty cells trimmed, entirely-empty rows discarded);
rows are not required to have uniform width — a ragged table (rows of
width 4, 2 and 1) extracts without failure, keeping the rows `["X","1"]`
and `["Y"]`. -/
theorem C9_row_invariant :
    (∀ (elem : Node) (r : List Str), r ∈ (extract_headers_and_rows elem).2 →
      r ≠ [] ∧ ∀ c, r.getLast? = some c → c ≠ []) ∧
    (extract_headers_and_rows tblRagged).2 =
      [["X".data, "1".data], ["Y".data]] := by
  constructor
  · intro elem r hr
    rw [extract_headers_and_rows] at hr
    simp only at hr
    obtain ⟨tr, -, htr⟩ := List.mem_filterMap.mp hr
    exact rowOfTr_invariant htr
  · decide

/-- Witness for C9: the first extracted row of the ragged table is
non-empty and ends in a non-empty cell. -/
theorem C9_row_invariant_witness :
    ["X".data, "1".data] ≠ [] ∧
    ∀ c, (["X".data, "1".data] : List Str).getLast? = some c → c ≠ [] :=
  C9_row_invariant.1 tblRagged ["X".data, "1".data]
    (by rw [C9_row_invariant.2]; exact List.mem_cons_self _ _)

def tblFonteInside : Node := .elem "table" []
  [.elem "tr" [] [.elem "td" [] [.text "Fonte: INEP".data]]]

def docFonteInside : List Node := [tblFonteInside]

/-- Counterexample to **C2**: a document whose only table carries the
citation `Fonte: INEP` inside a body cell.  The citation is present in the
table element's own text, yet the missing-source rule still emits its FAIL,
because the search covers only the caption and the sibling context, never
the cell text. -/
theorem C2_missing_source_counterexample :
    find_source_text (getText tblFonteInside) = true ∧
    (extract_tables_from_html docFonteInside).map rule_source_required =
      [some (make_issue .FAIL .Tabela "Tabela 1".data "table_source_required" [])] := by
  decide

/-- **C2 (amended)**: the missing-source rule emits exactly one FAIL iff
`find_source_text` finds no `Fonte:` match in the record's `context_all`,
which is built from the neighbor blocks and the caption alone:
`context_all = strip(join(before, caption, after))`, and two tables with
the same caption in the same position get the same `context_all` no matter
what their body markup contains. -/
theorem C2_missing_source_amended :
    (∀ t : TableRec, rule_source_required t =
      if find_source_text t.context_all then none
      else some (make_issue .FAIL .Tabela t.nome "table_source_required" [])) ∧
    (∀ (idx : Nat) (prevRev nextSibs : List Node) (n : Node),
      (mkTableRec idx prevRev n nextSibs).context_all =
        pyStrip (joinAll [(collect_neighbor_text prevRev nextSibs).1,
          tableCaption n, (collect_neighbor_text prevRev nextSibs).2])) ∧
    (∀ (idx : Nat) (prevRev nextSibs : List Node) (n1 n2 : Node),
      tableCaption n1 = tableCaption n2 →
      (mkTableRec idx prevRev n1 nextSibs).context_all =
        (mkTableRec idx prevRev n2 nextSibs).context_all) := by
  refine ⟨fun t => ?_, fun idx prevRev nextSibs n => rfl,
    fun idx prevRev nextSibs n1 n2 hcap => ?_⟩
  · by_cases h : find_source_text t.context_all
    · simp [rule_source_required, h]
    · simp [rule_source_required, h]
  · show pyStrip (joinAll [_, tableCaption n1, _]) = pyStrip (joinAll [_, tableCaption n2, _])
    rw [hcap]

/-- Witness for the amended C2: on the counterexample table, the rule fires
exactly because its context text has no match, while a table with a
trailing `Fonte:` paragraph produces none. -/
theorem C2_missing_source_amended_witness :
    rule_source_required (mkTableRec 1 [] tblFonteInside []) =
      (if find_source_text (mkTableRec 1 [] tblFonteInside []).context_all then none
       else some (make_issue .FAIL .Tabela (mkTableRec 1 [] tblFonteInside []).nome
         "table_source_required" [])) ∧
    (mkTableRec 1 [] tblFonteInside []).context_all =
      pyStrip (joinAll [(collect_neighbor_text [] []).1, tableCaption tblFonteInside,
        (collect_neighbor_text [] []).2]) ∧
    (mkTableRec 1 [] tblFonteInside []).context_all =
      (mkTableRec 1 [] (.elem "table" [] []) []).context_all :=
  ⟨C2_missing_source_amended.1 _, C2_missing_source_amended.2.1 1 [] [] _,
   C2_missing_source_amended.2.2 1 [] [] tblFonteInside (.elem "table" [] [])
     (by decide)⟩

/-- An explicit year range in the name or context makes the table a time
series (`range_in_title`), unless it already is one via year columns. -/
theorem is_ts_of_range (t : TableRec) {a b : Nat}
    (h : detect_year_range t.nome = some (a, b) ∨
         detect_year_range t.context_all = some (a, b)) :
    (is_time_series_table t).1 = true := by
  rw [is_time_series_table]
  by_cases hyc : 2 ≤ ((List.range t.headers.length).filter fun i =>
      match t.headers.get? i with
      | some h => yearExact (normalize_text h)
      | none => false).length
  · rw [if_pos hyc]
  · rw [if_neg hyc]
    cases hn : detect_year_range t.nome with
    | some p => rfl
    | none =>
      rcases h with h | h
      · rw [hn] at h; exact absurd h (by simp)
      · rw [h]

def tbl2023 : TableRec :=
  ⟨1, "Matriculas 2023".data, ["Curso".data, "2023".data],
   [["Direito".data, "100".data]], [], [], [], []⟩

/-- Counterexample to **C5**: a (non-time-series) table whose caption
mentions only the year 2023 under base year 2024.  The claim demands a
FAIL; the rule emits a single WARN (`year_outside_base`) and no FAIL at
all. -/
theorem C5_year_base_counterexample :
    rule_year_base_mentions tbl2023 2024 =
      [make_issue .WARN .Tabela "Matriculas 2023".data "year_outside_base" [2023]] ∧
    (rule_year_base_mentions tbl2023 2024).filter
      (fun f => f.severity == Severity.FAIL) = [] := by
  decide

/-- **C5 (amended)**: when the table's name or context contains an explicit
year range that does not bracket the base year, the rule emits exactly one
FAIL (`year_range_mismatch`); for a non-time-series table, years are
collected from the name and context only (never from the headers), and any
year different from the base year produces exactly one WARN
(`year_outside_base`) — not a FAIL — regardless of whether the base year is
also mentioned. -/
theorem C5_year_base_amended :
    (∀ (t : TableRec) (base a b : Nat),
      (match detect_year_range t.nome with
       | some p => some p
       | none => detect_year_range t.context_all) = some (a, b) →
      detect_years_in_text (t.nome ++ ' ' :: t.context_all) ≠ [] →
      ¬ (min a b ≤ base ∧ base ≤ max a b) →
      rule_year_base_mentions t base =
        [make_issue .FAIL .Tabela t.nome "year_range_mismatch"
          [(a : ℚ), b, base]]) ∧
    (∀ (t : TableRec) (base : Nat),
      (is_time_series_table t).1 = false →
      rule_year_base_mentions t base =
        if detect_years_in_text (t.nome ++ ' ' :: t.context_all) = [] then []
        else if sortedSetNat ((detect_years_in_text
            (t.nome ++ ' ' :: t.context_all)).filter (· ≠ base)) = [] then []
        else
          [make_issue .WARN .Tabela t.nome "year_outside_base"
            ((sortedSetNat ((detect_years_in_text
              (t.nome ++ ' ' :: t.context_all)).filter (· ≠ base))).map
              fun y => (y : ℚ))]) := by
  constructor
  · intro t base a b hrng hyears hbr
    have hts : (is_time_series_table t).1 = true := by
      cases hn : detect_year_range t.nome with
      | some p =>
        exact @is_ts_of_range t p.1 p.2 (Or.inl (by rw [hn]))
      | none =>
        rw [hn] at hrng
        exact @is_ts_of_range t a b (Or.inr hrng)
    rw [rule_year_base_mentions]
    simp only [if_neg hyears, hrng, hts, Option.isSome_some, and_self, if_true,
      if_pos hbr]
  · intro t base hts
    rw [rule_year_base_mentions]
    by_cases hy : detect_years_in_text (t.nome ++ ' ' :: t.context_all) = []
    · simp [hy]
    · simp only [if_neg hy, hts]
      have hcond : ¬ ((match detect_year_range t.nome with
          | some p => some p
          | none => detect_year_range t.context_all).isSome = true ∧
          False = true) := by simp
      by_cases ho : sortedSetNat ((detect_years_in_text
          (t.nome ++ ' ' :: t.context_all)).filter (· ≠ base)) = []
      · simp [ho]
      · simp [ho]

def tblRange : TableRec :=
  ⟨1, "Serie 2020 a 2022".data, ["Curso".data, "Valor".data],
   [["Direito".data, "100".data]], [], [], [], []⟩

/-- Witness for the amended C5: a table titled `Serie 2020 a 2022` under
base year 2024 yields exactly one FAIL (`year_range_mismatch`), and the
non-time-series table mentioning only 2023 yields exactly one WARN. -/
theorem C5_year_base_amended_witness :
    rule_year_base_mentions tblRange 2024 =
      [make_issue .FAIL .Tabela tblRange.nome "year_range_mismatch"
        [2020, 2022, 2024]] ∧
    rule_year_base_mentions tbl2023 2024 =
      [make_issue .WARN .Tabela tbl2023.nome "year_outside_base" [2023]] :=
  ⟨(C5_year_base_amended.1 tblRange 2024 2020 2022 (by decide) (by decide)
      (by decide)).trans (by decide),
   (C5_year_base_amended.2 tbl2023 2024 (by decide)).trans (by decide)⟩

/-- If `find_all` finds no matching element in a forest, the contextual walk
finds none either. -/
theorem siteWalk_nil_aux (tag : String) :
    ∀ (k : Nat) (l : List Node), sizeOf l ≤ k → findAllList [tag] l = [] →
      ∀ prevRev, siteWalk tag prevRev l = [] := by
  intro k
  induction k with
  | zero =>
    intro l hs hf prevRev
    cases l with
    | nil => rfl
    | cons n rest =>
      exfalso
      have := List.cons.sizeOf_spec n rest
      omega
  | succ k ih =>
    intro l hs hf prevRev
    cases l with
    | nil => rfl
    | cons n rest =>
      rw [siteWalk]
      have hspec := List.cons.sizeOf_spec n rest
      rw [findAllList] at hf
      obtain ⟨h1, h2⟩ := List.append_eq_nil.mp hf
      have hrest : siteWalk tag (n :: prevRev) rest = [] :=
        ih rest (by omega) h2 (n :: prevRev)
      cases n with
      | text s =>
        rw [siteWalkNode, hrest]
        rfl
      | elem t a cs =>
        rw [findAllInNode] at h1
        have hc : ([tag] : List String).contains t = false := by
          by_cases hc : ([tag] : List String).contains t
          · rw [if_pos hc] at h1; simp at h1
          · simpa using hc
        rw [if_neg (by rw [hc]; exact Bool.false_ne_true)] at h1
        simp only [List.nil_append] at h1
        have hcs : siteWalk tag [] cs = [] := by
          refine ih cs ?_ h1 []
          have := Node.elem.sizeOf_spec t a cs
          omega
        have htag : ¬ (t = tag) := by
          intro he
          rw [he] at hc
          simp at hc
        rw [siteWalkNode, if_neg htag, hcs, hrest]
        rfl

theorem extract_tables_nil {doc : List Node}
    (h : findAllList ["table"] doc = []) :
    extract_tables_from_html doc = [] := by
  rw [extract_tables_from_html,
    siteWalk_nil_aux "table" (sizeOf doc) doc le_rfl h []]
  rfl

theorem broken_chars_warn (doc : List Node) :
    ∀ x ∈ rule_broken_chars_in_text doc,
      x.severity = Severity.WARN ∧ x.kind = Kind.Documento := by
  intro x hx
  rw [rule_broken_chars_in_text] at hx
  obtain ⟨ch, -, hch⟩ := List.mem_filterMap.mp hx
  by_cases h : (docText doc).contains ch
  · rw [if_pos h] at hch
    injection hch with hch
    rw [← hch]
    exact ⟨rfl, rfl⟩
  · rw [if_neg h] at hch
    exact absurd hch (by simp)

theorem figure_findings_figura (f : FigureRec) (base : Nat) :
    ∀ x ∈ (rule_figure_source_required f).toList ++
      (rule_figure_year_base f base).toList, x.kind = Kind.Figura := by
  intro x hx
  rcases List.mem_append.mp hx with hx | hx
  · rw [rule_figure_source_required] at hx
    by_cases h : find_source_text f.context_all
    · rw [if_neg (by simp [h])] at hx
      simp at hx
    · rw [if_pos (by simp [h])] at hx
      simp only [Option.toList_some, List.mem_singleton] at hx
      rw [hx]
      rfl
  · rw [rule_figure_year_base] at hx
    by_cases hy : detect_years_in_text f.context_all = []
    · rw [if_pos hy] at hx
      simp at hx
    · rw [if_neg hy] at hx
      rcases hr : detect_year_range f.context_all with - | ⟨a, b⟩
      · simp only [hr] at hx
        by_cases ho : (detect_years_in_text f.context_all).filter (· ≠ base) = []
        · rw [if_neg (not_not_intro ho)] at hx
          simp at hx
        · rw [if_pos ho] at hx
          simp only [Option.toList_some, List.mem_singleton] at hx
          rw [hx]
          rfl
      · simp only [hr] at hx
        by_cases hb : min a b ≤ base ∧ base ≤ max a b
        · rw [if_neg (not_not_intro hb)] at hx
          simp at hx
        · rw [if_pos hb] at hx
          simp only [Option.toList_some, List.mem_singleton] at hx
          rw [hx]
          rfl

/-- C8 counterexample: on empty input (the claim explicitly includes empty
input) `run_audit` emits the rule `download_failed`, not the claimed single
document-level "no tables found" finding, whose rule is `no_tables`. -/
theorem C8_no_tables_counterexample :
    run_audit [] 2024 =
      [make_issue .FAIL .Documento "Documento".data "download_failed" []] ∧
    (run_audit [] 2024).filter (fun f => f.rule == "no_tables") = [] := by
  decide

/-- C8 (amended): for every NON-EMPTY parsed document with zero table
elements, no table record is extracted (so no table rule runs), the audit
starts with the document-level FAIL `no_tables`, and that is the only
document-level FAIL in the report; empty input instead yields the single
`download_failed` finding (see the counterexample). -/
theorem C8_no_tables_amended (doc : List Node) (base : Nat)
    (hne : doc ≠ []) (hz : findAllList ["table"] doc = []) :
    extract_tables_from_html doc = [] ∧
    (run_audit doc base).head? =
      some (make_issue .FAIL .Documento "Documento".data "no_tables" []) ∧
    (run_audit doc base).filter
      (fun f => f.kind == Kind.Documento && f.severity == Severity.FAIL) =
      [make_issue .FAIL .Documento "Documento".data "no_tables" []] := by
  have hex : extract_tables_from_html doc = [] := extract_tables_nil hz
  have hie : doc.isEmpty = false := by
    cases doc with
    | nil => exact absurd rfl hne
    | cons a l => rfl
  have hra : run_audit doc base =
      make_issue .FAIL .Documento "Documento".data "no_tables" [] ::
        (rule_broken_chars_in_text doc ++
         (extract_figures_from_html doc).flatMap fun f =>
           (rule_figure_source_required f).toList ++
           (rule_figure_year_base f base).toList) := by
    rw [run_audit, if_neg (by rw [hie]; exact Bool.false_ne_true)]
    simp [hz, hex, rule_structural_duplicate_tables, structDupAux]
  refine ⟨hex, by rw [hra]; rfl, ?_⟩
  rw [hra, List.filter_cons]
  rw [if_pos (by decide)]
  congr 1
  rw [List.filter_append, List.filter_eq_nil_iff.mpr, List.filter_eq_nil_iff.mpr]
  · rfl
  · intro x hx
    obtain ⟨f, -, hxf⟩ := List.mem_flatMap.mp hx
    have hk := figure_findings_figura f base x hxf
    simp [hk]
  · intro x hx
    have hw := broken_chars_warn doc x hx
    simp [hw.1]

/-- Witness for the amended C8 theorem on a concrete one-paragraph page. -/
theorem C8_no_tables_amended_witness :
    extract_tables_from_html [Node.elem "p" [] [Node.text "ola".data]] = [] ∧
    (run_audit [Node.elem "p" [] [Node.text "ola".data]] 2024).head? =
      some (make_issue .FAIL .Documento "Documento".data "no_tables" []) ∧
    (run_audit [Node.elem "p" [] [Node.text "ola".data]] 2024).filter
      (fun f => f.kind == Kind.Documento && f.severity == Severity.FAIL) =
      [make_issue .FAIL .Documento "Documento".data "no_tables" []] :=
  C8_no_tables_amended [Node.elem "p" [] [Node.text "ola".data]] 2024
    (by intro h; cases h) rfl

/-- Headers of the two-column totals examples. -/
def tblHdrs : List Str := ["Categoria".data, "Valor".data]

/-- Rows `A 10 / B 20 / C 30 / Total s` with a parametric declared total. -/
def rowsTot (s : Str) : List (List Str) :=
  [["A".data, "10".data], ["B".data, "20".data], ["C".data, "30".data],
   ["Total".data, s]]

def tblTot (s : Str) : TableRec :=
  ⟨1, "T".data, tblHdrs, rowsTot s, [], [], [], []⟩

/-- A table with no Total row and no Total column. -/
def tblNoTot : TableRec :=
  ⟨1, "T".data, tblHdrs,
   [["A".data, "10".data], ["B".data, "20".data]], [], [], [], []⟩

theorem rule_totals_gate (t : TableRec)
    (h1 : find_total_row_index t.rows_raw = none)
    (h2 : find_total_col_index t.headers = none) :
    rule_totals t = [] := by
  simp only [rule_totals, h1, h2]
  by_cases h0 : t.headers = [] ∨ t.rows_raw = []
  · rw [if_pos h0]
  · rw [if_neg h0, if_pos (by simp)]

theorem rule_totals_single_col (s : Str) (w : ℚ)
    (hw : parse_number_ptbr s = some w) :
    rule_totals (tblTot s) =
      if 1/2 < pyAbs (60 - w) then
        [make_issue .FAIL .Tabela "T".data "total_row_mismatch" [60, w]]
      else [] := by
  have htr : find_total_row_index (rowsTot s) = some 3 := rfl
  have htc : find_total_col_index tblHdrs = none := rfl
  have hp10 : parse_number_ptbr "10".data = some (ratVal 10 0 false) := rfl
  have hp20 : parse_number_ptbr "20".data = some (ratVal 20 0 false) := rfl
  have hp30 : parse_number_ptbr "30".data = some (ratVal 30 0 false) := rfl
  have hvals : col_numeric_vals (rowsTot s) 1 =
      [ratVal 10 0 false, ratVal 20 0 false, ratVal 30 0 false, w] := by
    simp [col_numeric_vals, rowsTot, List.filterMap, hp10, hp20, hp30, hw]
  have hfrac : (1:ℚ)/2 ≤ col_numeric_frac (rowsTot s) 1 := by
    simp only [col_numeric_frac, hvals]
    rw [if_neg (by simp)]
    norm_num [rowsTot]
  have h60 : ((0:ℚ) + ratVal 10 0 false + ratVal 20 0 false + ratVal 30 0 false)
      = 60 := by
    norm_num [ratVal_int]
  have hlen : tblHdrs.length = 2 := rfl
  simp only [rule_totals, tblTot, htr, htc]
  rw [if_neg (by simp [tblHdrs, rowsTot])]
  rw [if_neg (by simp)]
  simp only [hlen, List.range_succ, List.range_zero, List.nil_append,
    List.singleton_append, List.filter_cons, List.filter_nil]
  rw [show decide ((1:Nat) ≤ 0 ∧ (1:ℚ)/2 ≤ col_numeric_frac (rowsTot s) 0) = false from rfl,
      show decide ((1:Nat) ≤ 1 ∧ (1:ℚ)/2 ≤ col_numeric_frac (rowsTot s) 1) = true from
        decide_eq_true ⟨by norm_num, hfrac⟩]
  rw [if_neg (fun h => Bool.false_ne_true h), if_pos rfl]
  have hrep : ((rowsTot s).get? 3).bind (fun r => (r.get? 1).bind parse_number_ptbr)
      = some w := by
    simp [rowsTot, hw]
  have habove : List.filterMap (fun r => (r.get? 1).bind parse_number_ptbr)
      (List.take 3 (rowsTot s))
      = [ratVal 10 0 false, ratVal 20 0 false, ratVal 30 0 false] := by
    simp [rowsTot, List.take, hp10, hp20, hp30]
  simp only [List.filterMap_cons, List.filterMap_nil]
  rw [if_neg (by norm_num : ¬ (2:Nat) ≤ 1)]
  rw [hrep]
  simp only [habove, List.foldl_cons, List.foldl_nil, List.length_cons,
    List.length_nil, h60]
  by_cases hp : (1:ℚ)/2 < pyAbs (60 - w)
  · rw [if_pos ⟨by norm_num, hp⟩, if_pos hp]
    rfl
  · rw [if_neg (fun h => hp h.2), if_neg hp]
    rfl

/-- C3 counterexample: declared total `60,8` differs from the computed sum
`60` by `0.8`, within the claimed tolerance `max(1 absolute, relative)`,
yet the rule emits a FAIL: the code tolerance is the fixed absolute `0.5`
of `abs(calc - reported) > 0.5`, not `max(1, relative)`. -/
theorem C3_totals_counterexample :
    rule_totals (tblTot "60,8".data) =
      [make_issue .FAIL .Tabela "T".data "total_row_mismatch"
        [60, ratVal 608 1 false]] ∧
    pyAbs (60 - ratVal 608 1 false) ≤ 1 := by
  constructor
  · rw [rule_totals_single_col "60,8".data (ratVal 608 1 false) rfl,
      if_pos (by norm_num [ratVal, pyAbs])]
  · norm_num [ratVal, pyAbs]

/-- C3 (amended): the totals rule fires only when an explicit Total row or
Total column exists (no marker, no finding); for a detected total row it
sums each numeric column over the rows above and FAILs exactly when the
absolute divergence exceeds the fixed threshold 0.5 (not the claimed
`max(1 absolute, 0.5-1 percent relative)`); declared total 60 over rows
10, 20, 30 yields no finding and 61 yields exactly one FAIL reporting
sum 60 versus total 61. -/
theorem C3_totals_amended :
    (∀ t : TableRec, find_total_row_index t.rows_raw = none →
      find_total_col_index t.headers = none → rule_totals t = []) ∧
    rule_totals (tblTot "60".data) = [] ∧
    rule_totals (tblTot "61".data) =
      [make_issue .FAIL .Tabela "T".data "total_row_mismatch" [60, 61]] ∧
    (∀ (s : Str) (w : ℚ), parse_number_ptbr s = some w →
      rule_totals (tblTot s) =
        if 1/2 < pyAbs (60 - w) then
          [make_issue .FAIL .Tabela "T".data "total_row_mismatch" [60, w]]
        else []) := by
  refine ⟨rule_totals_gate, ?_, ?_, rule_totals_single_col⟩
  · rw [rule_totals_single_col "60".data (ratVal 60 0 false) rfl,
      if_neg (by norm_num [ratVal, pyAbs])]
  · rw [rule_totals_single_col "61".data (ratVal 61 0 false) rfl,
      if_pos (by norm_num [ratVal, pyAbs])]
    norm_num [ratVal]

/-- Witness for the amended C3 theorem: the no-marker table produces no
finding, and the `60,8` total instantiates the symbolic conjunct. -/
theorem C3_totals_amended_witness :
    rule_totals tblNoTot = [] ∧
    rule_totals (tblTot "60,8".data) =
      if 1/2 < pyAbs (60 - ratVal 608 1 false) then
        [make_issue .FAIL .Tabela "T".data "total_row_mismatch"
          [60, ratVal 608 1 false]]
      else [] :=
  ⟨C3_totals_amended.1 tblNoTot rfl rfl,
   C3_totals_amended.2.2.2 "60,8".data (ratVal 608 1 false) rfl⟩

/-- Case A example of the claim: year columns, one data row. -/
def tblCampus : TableRec :=
  ⟨1, "T".data, ["Campus".data, "2022".data, "2023".data, "2024".data],
   [["X".data, "10".data, "15".data, "1000".data]], [], [], [], []⟩

/-- The same row values under non-year headers. -/
def tblNames : TableRec :=
  ⟨1, "T".data, ["Name".data, "A".data, "B".data, "C".data],
   [["X".data, "10".data, "15".data, "1000".data]], [], [], [], []⟩

/-- Case B shape: years run down the first column, one metric column. -/
def tblYearRows : TableRec :=
  ⟨1, "T".data, ["Ano".data, "Alunos".data],
   [["2022".data, "10".data], ["2023".data, "1000".data]], [], [], [], []⟩

theorem extreme_variation_gate (t : TableRec)
    (h : (is_time_series_table t).1 = false) :
    rule_extreme_variation t = [] := by
  simp only [rule_extreme_variation, h]
  by_cases h0 : t.headers = [] ∨ t.rows_raw = []
  · rw [if_pos h0]
  · rw [if_neg h0, if_pos (by simp)]

/-- C4 counterexample: in the Case B shape (years down the first column)
the rule compares values taken from two DIFFERENT rows: the emitted FAIL
pairs 10 (row of 2022) with 1000 (row of 2023), although no single row of
the table contains both values. -/
theorem C4_variation_counterexample :
    rule_extreme_variation tblYearRows =
      [make_issue .FAIL .Tabela "T".data "extreme_year_variation"
        [2022, 10, 2023, 1000]] ∧
    ∀ r ∈ tblYearRows.rows_raw, ¬ ("10".data ∈ r ∧ "1000".data ∈ r) := by
  constructor
  · show variationSteps "T".data
      [(2022, ratVal 10 0 false), (2023, ratVal 1000 0 false)] ++ [] = _
    simp only [variationSteps, variationStep, List.append_nil]
    rw [if_neg (by norm_num [ratVal]), if_pos (by norm_num [ratVal, pyAbs])]
    norm_num [make_issue, ratVal]
  · decide

/-- C4 (amended): the variation rule runs only on time-series tables (for
every table not classified as a time series it emits nothing); with year
COLUMNS it compares consecutive years within the same row, as on the
Campus example (10 to 15 is an abrupt-change WARN, 15 to 1000 an extreme
FAIL, both inside the single row); the same values under non-year headers
give no finding; but with years down the first column (Case B of the
source, see the counterexample) consecutive values of a metric column are
compared ACROSS rows, so "never across rows" fails. -/
theorem C4_variation_amended :
    (∀ t : TableRec, (is_time_series_table t).1 = false →
      rule_extreme_variation t = []) ∧
    (is_time_series_table tblCampus).1 = true ∧
    rule_extreme_variation tblCampus =
      [make_issue .WARN .Tabela "T".data "abrupt_change" [2022, 10, 2023, 15],
       make_issue .FAIL .Tabela "T".data "extreme_year_variation"
         [2023, 15, 2024, 1000]] ∧
    (is_time_series_table tblNames).1 = false ∧
    rule_extreme_variation tblNames = [] := by
  refine ⟨extreme_variation_gate, rfl, ?_, rfl,
    extreme_variation_gate tblNames rfl⟩
  show variationSteps "T".data
    [(2022, ratVal 10 0 false), (2023, ratVal 15 0 false),
     (2024, ratVal 1000 0 false)] ++ [] = _
  simp only [variationSteps, variationStep, List.append_nil]
  rw [if_neg (by norm_num [ratVal])]
  rw [if_neg (by norm_num [ratVal, pyAbs])]
  rw [if_neg (by norm_num [ratVal, pyAbs])]
  rw [if_pos (by norm_num [ratVal, pyAbs])]
  rw [if_neg (by norm_num [ratVal])]
  rw [if_pos (by norm_num [ratVal, pyAbs])]
  norm_num [make_issue, ratVal]

/-- Witness for the amended C4 theorem: the gate conjunct applied to the
non-year-headers table. -/
theorem C4_variation_amended_witness :
    rule_extreme_variation tblNames = [] :=
  C4_variation_amended.1 tblNames rfl
